import Mathlib

/-!
# Verification of the polarity reconciliation core (`src/polarity/caster.py`)

Shallow embedding of the `PolarsCaster` class: the type-coercion engine
(`attempt_cast`), the temporal parser (`parse_date` / `parse_datetime`), the
row/table caster (`cast_row` / `cast_dataframe`) and the reconciler
(`split_dataframe`).

Modelling conventions:
* Python values are the inductive `Value`; Python floats are modelled as exact
  rationals plus NaN and signed infinity (IEEE rounding is abstracted away:
  text is parsed to the exact decimal rational).  No claim below depends on a
  value where the IEEE-rounded double and the exact rational differ.
* Python `==` is modelled by `pyEq` via a canonical key (`EqKey`): numeric
  types (`bool`/`int`/`float`) compare by numeric value, NaN is unequal to
  everything including itself, naive and aware datetimes never compare equal,
  `date` and `datetime` never compare equal under `==` (they do inside the
  reconciler's date-truncating comparison, which is modelled separately).
* Fallible Python code returns `Except`/`Option`; exceptions that the source
  swallows are folded into the value, exceptions that escape a function are
  `.error`.
* `parse_date` and `parse_datetime` are mutually recursive in the source and
  do not terminate on strings that fail every non-recursive stage (Python
  raises `RecursionError`, which `attempt_cast` does not catch).  They are
  embedded with a fuel parameter; exhausted fuel is the `RecursionError`.
-/

set_option maxRecDepth 1000

namespace Polarity

instance instDecEqExcept {ε α : Type} [DecidableEq ε] [DecidableEq α] :
    DecidableEq (Except ε α) := fun a b =>
  match a, b with
  | .error e, .error f =>
    if h : e = f then .isTrue (h ▸ rfl) else .isFalse (fun hc => h (Except.error.inj hc))
  | .ok x, .ok y =>
    if h : x = y then .isTrue (h ▸ rfl) else .isFalse (fun hc => h (Except.ok.inj hc))
  | .error _, .ok _ => .isFalse (fun hc => Except.noConfusion hc)
  | .ok _, .error _ => .isFalse (fun hc => Except.noConfusion hc)

/-- A Python `float`: NaN, a signed infinity (`neg = true` for `-inf`), or an
exact rational value. -/
inductive PFloat where
  | nan : PFloat
  | inf (neg : Bool) : PFloat
  | val (q : ℚ) : PFloat
deriving DecidableEq, Repr

/-- A Python `datetime.date` (year, month, day). -/
structure PyDate where
  year : Int
  month : Int
  day : Int
deriving DecidableEq, Repr

/-- A Python `datetime.datetime`; `tz` is the UTC offset in minutes for an
aware datetime, `none` for a naive one.  Microseconds are not modelled. -/
structure PyDateTime where
  year : Int
  month : Int
  day : Int
  hour : Int
  minute : Int
  second : Int
  tz : Option Int
deriving DecidableEq, Repr

/-- Python `datetime.date()`: truncate a datetime to its calendar date. -/
def PyDateTime.toDate (dt : PyDateTime) : PyDate :=
  ⟨dt.year, dt.month, dt.day⟩

/-- Python `datetime.combine(d, datetime.min.time())`: a date at midnight, naive. -/
def PyDate.atMidnight (d : PyDate) : PyDateTime :=
  ⟨d.year, d.month, d.day, 0, 0, 0, none⟩

/-- A Python runtime value of the kinds the caster manipulates. -/
inductive Value where
  | vnull : Value
  | vbool (b : Bool) : Value
  | vint (n : Int) : Value
  | vfloat (f : PFloat) : Value
  | vstr (s : String) : Value
  | vdate (d : PyDate) : Value
  | vdatetime (dt : PyDateTime) : Value
deriving DecidableEq, Repr

/-- Days since 1970-01-01 of a civil date (standard civil-from-days inverse;
used only to compare aware datetimes by instant). -/
def daysFromCivil (y m d : Int) : Int :=
  let y' := if m ≤ 2 then y - 1 else y
  let era := (if y' ≥ 0 then y' else y' - 399) / 400
  let yoe := y' - era * 400
  let mp := (m + 9) % 12
  let doy := (153 * mp + 2) / 5 + d - 1
  let doe := yoe * 365 + yoe / 4 - yoe / 100 + doy
  era * 146097 + doe - 719468

/-- Seconds since epoch (UTC) of an aware datetime with offset `off` minutes. -/
def instantOf (dt : PyDateTime) (off : Int) : Int :=
  daysFromCivil dt.year dt.month dt.day * 86400
    + dt.hour * 3600 + dt.minute * 60 + dt.second - off * 60

/-- Canonical key deciding Python `==` between values of different kinds. -/
inductive EqKey where
  | nullk : EqKey
  | numk (q : ℚ) : EqKey
  | infk (neg : Bool) : EqKey
  | strk (s : String) : EqKey
  | datek (d : PyDate) : EqKey
  | naivek (dt : PyDateTime) : EqKey
  | awarek (instant : Int) : EqKey
deriving DecidableEq, Repr

/-- The canonical key of a value; `none` for NaN, which is `==`-unequal to
everything including itself. -/
def ck : Value → Option EqKey
  | .vnull => some .nullk
  | .vbool b => some (.numk (if b then 1 else 0))
  | .vint n => some (.numk (n : ℚ))
  | .vfloat .nan => none
  | .vfloat (.inf b) => some (.infk b)
  | .vfloat (.val q) => some (.numk q)
  | .vstr s => some (.strk s)
  | .vdate d => some (.datek d)
  | .vdatetime dt =>
    match dt.tz with
    | none => some (.naivek dt)
    | some off => some (.awarek (instantOf dt off))

/-- Python `==` on values (`True == 1`, `1 == 1.0`, `nan != nan`,
`None == None`, naive vs aware datetimes unequal, `date` vs `datetime`
unequal). -/
def pyEq (a b : Value) : Bool :=
  match ck a, ck b with
  | some x, some y => decide (x = y)
  | _, _ => false

/-! ## String helpers (Python `str` operations, over `List Char`) -/

/-- The whitespace characters Python's `str.strip()` removes. -/
def isPySpace (c : Char) : Bool :=
  c = ' ' || c = '\t' || c = '\n' || c = '\x0d' || c = '\x0b' || c = '\x0c'

/-- ASCII lower-casing of one character (`str.lower()`; the token sets the
caster compares against are ASCII, so non-ASCII case folding is immaterial). -/
def lowerChar (c : Char) : Char :=
  if 'A' ≤ c && c ≤ 'Z' then Char.ofNat (c.toNat + 32) else c

/-- Python `str.lower()`. -/
def pyLower (s : String) : String :=
  ⟨s.data.map lowerChar⟩

/-- Drop leading Python whitespace. -/
def dropSpaces : List Char → List Char
  | [] => []
  | c :: cs => if isPySpace c then dropSpaces cs else c :: cs

/-- Python `str.strip()`. -/
def pyStrip (s : String) : String :=
  ⟨(dropSpaces (dropSpaces s.data.reverse).reverse)⟩

/-- Split a character list at every occurrence of `sep` (Python
`str.split(sep)` for a one-character separator). -/
def splitCharAux (sep : Char) : List Char → List Char → List (List Char)
  | [], acc => [acc.reverse]
  | c :: cs, acc =>
    if c = sep then acc.reverse :: splitCharAux sep cs []
    else splitCharAux sep cs (c :: acc)

/-- Python `s.split(sep)` for a single-character separator. -/
def pySplit (sep : Char) (s : List Char) : List (List Char) :=
  splitCharAux sep s []

/-- Whether every character is an ASCII digit; false for the empty list. -/
def allDigits (l : List Char) : Bool :=
  !l.isEmpty && l.all (·.isDigit)

/-- Numeric value of a digit list (little reasoning needed; digits only). -/
def digitsToNat (l : List Char) : Nat :=
  l.foldl (fun acc c => acc * 10 + (c.toNat - 48)) 0

/-- Python `int(text)`: strip whitespace, optional sign, a non-empty digit
string (underscore grouping is not modelled).  `none` is `ValueError`. -/
def parsePyInt (s : String) : Option Int :=
  let l := dropSpaces (dropSpaces s.data.reverse).reverse
  match l with
  | '+' :: rest => if allDigits rest then some (digitsToNat rest : Int) else none
  | '-' :: rest => if allDigits rest then some (-(digitsToNat rest : Int)) else none
  | rest => if allDigits rest then some (digitsToNat rest : Int) else none

/-- Parse the body of a float literal (after sign removal): digits, optional
fractional part, optional exponent.  Returns the exact decimal rational. -/
def parseFloatBody (l : List Char) : Option ℚ :=
  let intPart := l.takeWhile (fun c => c.isDigit)
  let rest1 := l.drop intPart.length
  let (fracPart, rest2) : List Char × List Char :=
    match rest1 with
    | '.' :: r =>
      (r.takeWhile (fun c => Char.isDigit c), r.drop (r.takeWhile (fun c => Char.isDigit c)).length)
    | _ => ([], rest1)
  if intPart.isEmpty && fracPart.isEmpty then none
  else
    let mant : Int := (digitsToNat (intPart ++ fracPart) : Int)
    let base : ℚ := mkRat mant (10 ^ fracPart.length)
    match rest2 with
    | [] => some base
    | e :: r =>
      if e = 'e' || e = 'E' then
        let (esign, edigs) :=
          match r with
          | '+' :: rr => (1, rr)
          | '-' :: rr => (-1, rr)
          | rr => (1, rr)
        if allDigits edigs then
          let ex : Int := esign * (digitsToNat edigs : Int)
          if ex ≥ 0 then some (base * ((10 ^ ex.toNat : ℕ) : ℚ))
          else some (base / ((10 ^ (-ex).toNat : ℕ) : ℚ))
        else none
      else none

/-- Case-insensitive equality with an ASCII-lowercase reference word. -/
def eqLower (l : List Char) (w : List Char) : Bool :=
  l.map lowerChar == w

/-- The IEEE double overflow threshold, 2^1024, spelled as a numeral so that
proofs never unfold a deep exponentiation. -/
def floatOverflowBound : ℚ :=
  179769313486231590772930519078902473361797697894230657273430081157732675805500963132708477322407536021120113879871393357658789768814416622492847430639474124377767893424865485276302219601246094119453082952085005768838150682342462881473913110540827237163350510684586298239947245938479716304835356329624224137216

/-- Python `float(text)`: strip, optional sign, then `inf`/`infinity`/`nan`
or a decimal literal.  Values at or beyond 2^1024 overflow to infinity as
CPython does.  `none` is `ValueError`. -/
def parsePyFloat (s : String) : Option PFloat :=
  let l := dropSpaces (dropSpaces s.data.reverse).reverse
  let (neg, body) :=
    match l with
    | '+' :: rest => (false, rest)
    | '-' :: rest => (true, rest)
    | rest => (false, rest)
  if eqLower body ['i', 'n', 'f'] || eqLower body ['i', 'n', 'f', 'i', 'n', 'i', 't', 'y'] then
    some (.inf neg)
  else if eqLower body ['n', 'a', 'n'] then
    some .nan
  else
    match parseFloatBody body with
    | none => none
    | some q =>
      let q' := if neg then -q else q
      if floatOverflowBound ≤ |q'| then some (.inf neg) else some (.val q')

/-! ## Calendar arithmetic and `str()` rendering -/

/-- Gregorian leap year. -/
def isLeap (y : Int) : Bool :=
  y % 4 = 0 && (y % 100 ≠ 0 || y % 400 = 0)

/-- Days in a month. -/
def daysInMonth (y m : Int) : Int :=
  if m = 2 then (if isLeap y then 29 else 28)
  else if m = 4 || m = 6 || m = 9 || m = 11 then 30
  else 31

/-- Python's `date(y, m, d)` constructor: `some` on a valid calendar date
(years 1–9999), `none` for the `ValueError` it raises otherwise. -/
def mkDate (y m d : Int) : Option PyDate :=
  if 1 ≤ y && y ≤ 9999 && 1 ≤ m && m ≤ 12 && 1 ≤ d && d ≤ daysInMonth y m then
    some ⟨y, m, d⟩
  else none

/-- Left-pad a numeral with zeros. -/
def padZero (w : Nat) (n : Int) : String :=
  let s := toString n.natAbs
  let pad := ⟨List.replicate (w - s.length) '0'⟩
  (if n < 0 then "-" else "") ++ pad ++ s

/-- Python `str(date)`: ISO `YYYY-MM-DD`. -/
def dateStr (d : PyDate) : String :=
  padZero 4 d.year ++ "-" ++ padZero 2 d.month ++ "-" ++ padZero 2 d.day

/-- Python `str(datetime)`: `YYYY-MM-DD HH:MM:SS`, plus `±HH:MM` when aware. -/
def datetimeStr (dt : PyDateTime) : String :=
  dateStr dt.toDate ++ " " ++ padZero 2 dt.hour ++ ":" ++ padZero 2 dt.minute
    ++ ":" ++ padZero 2 dt.second
    ++ match dt.tz with
       | none => ""
       | some off =>
         (if off < 0 then "-" else "+") ++ padZero 2 (off.natAbs / 60)
           ++ ":" ++ padZero 2 (off.natAbs % 60)

/-- Decimal rendering of a rational whose denominator divides a power of ten
(every float reachable in this development is such); used for `str(float)`. -/
def ratRepr (q : ℚ) : String :=
  match (List.range 40).find? (fun k => (q * (10 : ℚ) ^ k).den = 1) with
  | none => toString q.num ++ "/" ++ toString q.den
  | some k =>
    if k = 0 then toString q.num ++ ".0"
    else
      let n := (q * (10 : ℚ) ^ k).num
      let digs := toString n.natAbs
      let digs := ⟨List.replicate (k + 1 - digs.length) '0'⟩ ++ digs
      let point := digs.length - k
      (if q.num < 0 then "-" else "") ++
        ⟨digs.data.take point⟩ ++ "." ++ ⟨digs.data.drop point⟩

/-- Python `str(value)` for the value kinds in the model. -/
def pyStr : Value → String
  | .vnull => "None"
  | .vbool b => if b then "True" else "False"
  | .vint n => toString n
  | .vfloat .nan => "nan"
  | .vfloat (.inf neg) => if neg then "-inf" else "inf"
  | .vfloat (.val q) => ratRepr q
  | .vstr s => s
  | .vdate d => dateStr d
  | .vdatetime dt => datetimeStr dt

/-! ## The temporal parser (`parse_date` / `parse_datetime`) -/

/-- Python `date.fromisoformat` (Python ≤ 3.10 semantics): exactly `YYYY-MM-DD`. -/
def fromIsoDate (l : List Char) : Option PyDate :=
  match l with
  | [y1, y2, y3, y4, '-', m1, m2, '-', d1, d2] =>
    if allDigits [y1, y2, y3, y4] && allDigits [m1, m2] && allDigits [d1, d2] then
      mkDate (digitsToNat [y1, y2, y3, y4] : Int) (digitsToNat [m1, m2] : Int)
        (digitsToNat [d1, d2] : Int)
    else none
  | _ => none

/-- Parse `HH[:MM[:SS]]` with strict two-digit fields (the time shapes
Python ≤ 3.10 `fromisoformat` accepts, fractional seconds aside). -/
def parseIsoTime (l : List Char) : Option (Int × Int × Int) :=
  match l with
  | [h1, h2] =>
    if allDigits [h1, h2] then
      let h := (digitsToNat [h1, h2] : Int)
      if h < 24 then some (h, 0, 0) else none
    else none
  | [h1, h2, ':', m1, m2] =>
    if allDigits [h1, h2] && allDigits [m1, m2] then
      let h := (digitsToNat [h1, h2] : Int); let m := (digitsToNat [m1, m2] : Int)
      if h < 24 && m < 60 then some (h, m, 0) else none
    else none
  | [h1, h2, ':', m1, m2, ':', s1, s2] =>
    if allDigits [h1, h2] && allDigits [m1, m2] && allDigits [s1, s2] then
      let h := (digitsToNat [h1, h2] : Int); let m := (digitsToNat [m1, m2] : Int)
      let s := (digitsToNat [s1, s2] : Int)
      if h < 24 && m < 60 && s < 60 then some (h, m, s) else none
    else none
  | _ => none

/-- Parse a trailing `±HH:MM` timezone and return (offset minutes, rest of the
time text before it); `none` when no sign character occurs or the fields are
out of range — CPython validates the offset fields (hour < 24, minute < 60)
and raises `ValueError` otherwise, so an out-of-range offset never yields an
aware datetime. -/
def splitTz (l : List Char) : Option (List Char × Int) :=
  match l.reverse with
  | m2 :: m1 :: ':' :: h2 :: h1 :: sgn :: restRev =>
    if (sgn = '+' || sgn = '-') && allDigits [h1, h2] && allDigits [m1, m2]
        && digitsToNat [h1, h2] < 24 && digitsToNat [m1, m2] < 60 then
      let off := (digitsToNat [h1, h2] : Int) * 60 + (digitsToNat [m1, m2] : Int)
      some (restRev.reverse, if sgn = '-' then -off else off)
    else none
  | _ => none

/-- Python `datetime.fromisoformat` (Python ≤ 3.10 subset): `YYYY-MM-DD`,
optionally followed by one separator character, `HH[:MM[:SS]]`, and an
optional `±HH:MM` offset with in-range fields.  Fractional seconds and
offsets with a seconds part are not modelled; no claim exercises them. -/
def fromIsoDatetime (l : List Char) : Option PyDateTime :=
  let datePart := l.take 10
  match fromIsoDate datePart with
  | none => none
  | some d =>
    match l.drop 10 with
    | [] => some d.atMidnight
    | _ :: timePart =>
      match splitTz timePart with
      | some (timeBody, off) =>
        match parseIsoTime timeBody with
        | some (h, m, s) => some ⟨d.year, d.month, d.day, h, m, s, some off⟩
        | none => none
      | none =>
        match parseIsoTime timePart with
        | some (h, m, s) => some ⟨d.year, d.month, d.day, h, m, s, none⟩
        | none => none

/-- Python `value.replace('Z', '+00:00')` on a character list. -/
def replaceZ : List Char → List Char
  | [] => []
  | c :: cs => if c = 'Z' then '+' :: '0' :: '0' :: ':' :: '0' :: '0' :: replaceZ cs
               else c :: replaceZ cs

/-- The `re.search(r'([-+])(\d{2})(\d{2})$', value)` rewrite used for
timezone offsets without a colon: when the text ends in `±HHMM`, replace the
last five characters by `±HH:MM`. -/
def fixTzNoColon (l : List Char) : Option (List Char) :=
  match l.reverse with
  | m2 :: m1 :: h2 :: h1 :: sgn :: restRev =>
    if (sgn = '+' || sgn = '-') && allDigits [h1, h2] && allDigits [m1, m2] then
      some (restRev.reverse ++ [sgn, h1, h2, ':', m1, m2])
    else none
  | _ => none

/-- Field ordering of a slash/dash date pattern. -/
inductive PartOrder where
  | ymd : PartOrder
  | mdy : PartOrder
  | dmy : PartOrder
deriving DecidableEq, Repr

/-- One entry of the `date_patterns` table: separator, admissible digit-count
ranges of the three parts, field order, and whether the year is two-digit
(`%y`, mapped to 1969–2068 as `strptime` does). -/
structure DatePattern where
  sep : Char
  len0 : Nat × Nat
  len1 : Nat × Nat
  len2 : Nat × Nat
  order : PartOrder
  y2 : Bool
deriving Repr

/-- The constructor's `date_patterns` list (regex/format pairs, in order). -/
def date_patterns : List DatePattern :=
  [⟨'-', (4, 4), (2, 2), (2, 2), .ymd, false⟩,
   ⟨'/', (4, 4), (2, 2), (2, 2), .ymd, false⟩,
   ⟨'/', (1, 2), (1, 2), (4, 4), .mdy, false⟩,
   ⟨'-', (1, 2), (1, 2), (4, 4), .mdy, false⟩,
   ⟨'/', (1, 2), (1, 2), (2, 2), .mdy, true⟩,
   ⟨'-', (1, 2), (1, 2), (2, 2), .mdy, true⟩,
   ⟨'/', (1, 2), (1, 2), (4, 4), .dmy, false⟩,
   ⟨'-', (1, 2), (1, 2), (4, 4), .dmy, false⟩,
   ⟨'/', (1, 2), (1, 2), (2, 2), .dmy, true⟩,
   ⟨'-', (1, 2), (1, 2), (2, 2), .dmy, true⟩]

/-- Rule `%y` of `strptime`: two-digit years 00–68 map to 2000–2068, 69–99 to
1969–1999. -/
def expandY2 (y : Int) : Int :=
  if y ≤ 68 then 2000 + y else 1900 + y

/-- Whether `n` is within the inclusive range `r`. -/
def inRange (r : Nat × Nat) (n : Nat) : Bool :=
  r.1 ≤ n && n ≤ r.2

/-- Match one date pattern against the text and parse under its format: the
regex gate is the part-count/digit/length shape, the `strptime` call is the
calendar validation. -/
def matchDatePattern (p : DatePattern) (l : List Char) : Option PyDate :=
  match pySplit p.sep l with
  | [p0, p1, p2] =>
    if allDigits p0 && allDigits p1 && allDigits p2
        && inRange p.len0 p0.length && inRange p.len1 p1.length
        && inRange p.len2 p2.length then
      let n0 := (digitsToNat p0 : Int)
      let n1 := (digitsToNat p1 : Int)
      let n2 := (digitsToNat p2 : Int)
      match p.order with
      | .ymd => mkDate n0 n1 n2
      | .mdy => mkDate (if p.y2 then expandY2 n2 else n2) n0 n1
      | .dmy => mkDate (if p.y2 then expandY2 n2 else n2) n1 n0
    else none
  | _ => none

/-- Run the `date_patterns` loop: first pattern whose regex matches and whose
format parses wins (a matching regex with a failing parse falls through to
the next pattern, as the source's `continue` does). -/
def tryDatePatterns : List DatePattern → List Char → Option PyDate
  | [], _ => none
  | p :: ps, l =>
    match matchDatePattern p l with
    | some d => some d
    | none => tryDatePatterns ps l

/-- The manual slash/dash fallback of `parse_date` (source lines 176–212),
for separator `sep` (`'/'` or `'-'`): split into three parts; a 4-digit first
part is read `Y-M-D`; otherwise a 4-digit last part is the year, trying
month-first then day-first ordering; every `int`/`date` failure is swallowed. -/
def manualSepFallback (sep : Char) (l : List Char) : Option PyDate :=
  if l.contains sep then
    match pySplit sep l with
    | [p0, p1, p2] =>
      if p0.length = 4 then
        match parsePyInt ⟨p0⟩, parsePyInt ⟨p1⟩, parsePyInt ⟨p2⟩ with
        | some y, some m, some d => mkDate y m d
        | _, _, _ => none
      else if p2.length = 4 then
        match parsePyInt ⟨p2⟩, parsePyInt ⟨p0⟩, parsePyInt ⟨p1⟩ with
        | some y, some a, some b =>
          match mkDate y a b with
          | some d => some d
          | none => mkDate y b a
        | _, _, _ => none
      else none
    | _ => none
  else none

/-- Build a datetime from a date, time fields and an optional offset. -/
def mkDT (d : PyDate) (h m s : Int) (tz : Option Int) : PyDateTime :=
  ⟨d.year, d.month, d.day, h, m, s, tz⟩

/-- Parse `HH:MM:SS` with strict two-digit fields and `strptime` ranges. -/
def parseTime8 (tp : List Char) : Option (Int × Int × Int) :=
  match tp with
  | [h1, h2, ':', m1, m2, ':', s1, s2] =>
    if allDigits [h1, h2] && allDigits [m1, m2] && allDigits [s1, s2] then
      let h := (digitsToNat [h1, h2] : Int); let m := (digitsToNat [m1, m2] : Int)
      let s := (digitsToNat [s1, s2] : Int)
      if h < 24 && m < 60 && s < 60 then some (h, m, s) else none
    else none
  | _ => none

/-- Parse the 19-character prefix `YYYYsMMsDD tHH:MM:SS` with date separator
`dsep` and date/time separator `tsep`. -/
def parseRigid19 (dsep tsep : Char) (l : List Char) : Option (PyDate × Int × Int × Int) :=
  match l with
  | [y1, y2, y3, y4, a, mo1, mo2, b, d1, d2, t, h1, h2, ':', mi1, mi2, ':', s1, s2] =>
    if a = dsep && b = dsep && t = tsep
        && allDigits [y1, y2, y3, y4] && allDigits [mo1, mo2] && allDigits [d1, d2] then
      match mkDate (digitsToNat [y1, y2, y3, y4] : Int) (digitsToNat [mo1, mo2] : Int)
          (digitsToNat [d1, d2] : Int) with
      | none => none
      | some d =>
        match parseTime8 [h1, h2, ':', mi1, mi2, ':', s1, s2] with
        | some (h, m, s) => some (d, h, m, s)
        | none => none
    else none
  | _ => none

/-- Pattern `'%Y-%m-%dT%H:%M:%SZ'` under `^\d{4}-\d{2}-\d{2}T\d{2}:\d{2}:\d{2}Z$`:
the `Z` is matched literally, so `strptime` yields a naive datetime. -/
def dtPat1 (l : List Char) : Option PyDateTime :=
  if l.length = 20 && l.drop 19 = ['Z'] then
    match parseRigid19 '-' 'T' (l.take 19) with
    | some (d, h, m, s) => some (mkDT d h m s none)
    | none => none
  else none

/-- Pattern `'%Y-%m-%dT%H:%M:%S%z'` under `...[-+]\d{2}:\d{2}$`: aware
datetime.  `strptime`'s `%z` restricts the offset minutes to 00–59 and the
resulting `timezone` rejects offsets of a day or more, so out-of-range
fields are a `ValueError` (`none`, falling through to the next pattern). -/
def dtPat2 (l : List Char) : Option PyDateTime :=
  match l.drop 19 with
  | [sgn, h1, h2, ':', m1, m2] =>
    if (sgn = '+' || sgn = '-') && allDigits [h1, h2] && allDigits [m1, m2]
        && digitsToNat [h1, h2] < 24 && digitsToNat [m1, m2] < 60 then
      match parseRigid19 '-' 'T' (l.take 19) with
      | some (d, h, m, s) =>
        let off := (digitsToNat [h1, h2] : Int) * 60 + (digitsToNat [m1, m2] : Int)
        some (mkDT d h m s (some (if sgn = '-' then -off else off)))
      | none => none
    else none
  | _ => none

/-- The `format_str is None` entry under `...[-+]\d{4}$`: rewrite the
colonless offset and reparse with `fromisoformat`. -/
def dtPat3 (l : List Char) : Option PyDateTime :=
  match l.drop 19 with
  | [sgn, h1, h2, m1, m2] =>
    if (sgn = '+' || sgn = '-') && allDigits [h1, h2] && allDigits [m1, m2]
        && (parseRigid19 '-' 'T' (l.take 19)).isSome then
      match fixTzNoColon l with
      | some l' => fromIsoDatetime l'
      | none => none
    else none
  | _ => none

/-- Pattern `'%Y-%m-%d %H:%M:%S'`. -/
def dtPat4 (l : List Char) : Option PyDateTime :=
  match parseRigid19 '-' ' ' l with
  | some (d, h, m, s) => some (mkDT d h m s none)
  | none => none

/-- Pattern `'%Y/%m/%d %H:%M:%S'`. -/
def dtPat5 (l : List Char) : Option PyDateTime :=
  match parseRigid19 '/' ' ' l with
  | some (d, h, m, s) => some (mkDT d h m s none)
  | none => none

/-- Parse a `\d{1,2}/\d{1,2}/\d{4}`-shaped date part under a field order. -/
def parseSlashDate (sep : Char) (order : PartOrder) (dp : List Char) : Option PyDate :=
  match pySplit sep dp with
  | [p0, p1, p2] =>
    if allDigits p0 && allDigits p1 && allDigits p2
        && inRange (1, 2) p0.length && inRange (1, 2) p1.length && p2.length = 4 then
      let n0 := (digitsToNat p0 : Int); let n1 := (digitsToNat p1 : Int)
      let n2 := (digitsToNat p2 : Int)
      match order with
      | .ymd => none
      | .mdy => mkDate n2 n0 n1
      | .dmy => mkDate n2 n1 n0
    else none
  | _ => none

/-- Pattern `'%m/%d/%Y %I:%M:%S %p'` under
`^\d{1,2}/\d{1,2}/\d{4} \d{1,2}:\d{2}:\d{2} [AP]M$`. -/
def dtPat6 (l : List Char) : Option PyDateTime :=
  match pySplit ' ' l with
  | [dp, tp, ap] =>
    if ap = ['A', 'M'] || ap = ['P', 'M'] then
      match parseSlashDate '/' .mdy dp with
      | none => none
      | some d =>
        match pySplit ':' tp with
        | [th, tm, ts] =>
          if allDigits th && allDigits tm && allDigits ts
              && inRange (1, 2) th.length && tm.length = 2 && ts.length = 2 then
            let h := (digitsToNat th : Int); let m := (digitsToNat tm : Int)
            let s := (digitsToNat ts : Int)
            if 1 ≤ h && h ≤ 12 && m < 60 && s < 60 then
              let h24 := if ap = ['P', 'M'] then (if h = 12 then 12 else h + 12)
                         else (if h = 12 then 0 else h)
              some (mkDT d h24 m s none)
            else none
          else none
        | _ => none
    else none
  | _ => none

/-- A `\d{1,2}s\d{1,2}s\d{4} \d{2}:\d{2}:\d{2}` pattern with the given date
separator and field order (`'%m/%d/%Y %H:%M:%S'` and its EU variants). -/
def dtPatSlash (sep : Char) (order : PartOrder) (l : List Char) : Option PyDateTime :=
  match pySplit ' ' l with
  | [dp, tp] =>
    match parseSlashDate sep order dp with
    | none => none
    | some d =>
      match parseTime8 tp with
      | some (h, m, s) => some (mkDT d h m s none)
      | none => none
  | _ => none

/-- The constructor's `datetime_patterns` list, in order. -/
def datetime_patterns : List (List Char → Option PyDateTime) :=
  [dtPat1, dtPat2, dtPat3, dtPat4, dtPat5, dtPat6,
   dtPatSlash '/' .mdy, dtPatSlash '/' .dmy, dtPatSlash '-' .dmy]

/-- Run the `datetime_patterns` loop (first match-and-parse success wins). -/
def tryDtPatterns : List (List Char → Option PyDateTime) → List Char → Option PyDateTime
  | [], _ => none
  | p :: ps, l =>
    match p l with
    | some dt => some dt
    | none => tryDtPatterns ps l

/-- The characters strictly after the first occurrence of `c`. -/
def afterFirst (c : Char) (l : List Char) : List Char :=
  (l.dropWhile (fun x => x ≠ c)).drop 1

/-- The characters before the first occurrence of `c` (`split(c)[0]`). -/
def beforeFirst (c : Char) (l : List Char) : List Char :=
  l.takeWhile (fun x => x ≠ c)

/-- Stages 1–2 of `parse_date` on text: the ISO fast path inside the first
`try` block (`T`-split, space-split with `-`/`/` handling, or direct
`fromisoformat`); any `ValueError` falls through to the pattern table. -/
def parseDateIsoStage (l : List Char) : Option PyDate :=
  if l.contains 'T' then fromIsoDate (beforeFirst 'T' l)
  else if l.contains ' ' then
    let dp := beforeFirst ' ' l
    if dp.contains '-' then fromIsoDate dp
    else if dp.contains '/' then
      match pySplit '/' dp with
      | [a, b, c] =>
        match parsePyInt ⟨a⟩, parsePyInt ⟨b⟩, parsePyInt ⟨c⟩ with
        | some y, some m, some d => mkDate y m d
        | _, _, _ => none
      | _ => none
    else none
  else fromIsoDate l

/-- Stage 2 of `parse_datetime` on text: the ISO/timezone fast path inside
its first `try` block (source lines 234–261).  `T`-text ending in `Z` is
reparsed with the `Z` replaced; `T`-text with a `+` or a `-` after the `T`
gets the colonless-offset rewrite on failure; any other `T`-text goes
straight to `fromisoformat` (line 253), keeping its time-of-day; `T`-less
text also goes to `fromisoformat`.  Every `ValueError` falls through to the
pattern table. -/
def parseDatetimeIsoStage (l : List Char) : Option PyDateTime :=
  if l.contains 'T' then
    if l.getLast? = some 'Z' then fromIsoDatetime (replaceZ l)
    else if l.contains '+' || (afterFirst 'T' l).contains '-' then
      match fromIsoDatetime l with
      | some dt => some dt
      | none =>
        match fixTzNoColon l with
        | some l' => fromIsoDatetime l'
        | none => none
    else fromIsoDatetime l
  else fromIsoDatetime l

/-- Parse the time part of the manual slash stage (`h, m, s = 0, 0, 0`
unless it contains `':'`) and build the `datetime`; an invalid time is the
swallowed `ValueError`. -/
def timeAndBuild (d : PyDate) (tp : List Char) : Except Unit (Option PyDateTime) :=
  if tp.contains ':' then
    let tparts := pySplit ':' tp
    match parsePyInt ⟨tparts.headD []⟩, parsePyInt ⟨tparts.tail.headD []⟩ with
    | some h, some m =>
      match (if tparts.length > 2 then parsePyInt ⟨tparts.tail.tail.headD []⟩ else some 0) with
      | some s =>
        if 0 ≤ h && h < 24 && 0 ≤ m && m < 60 && 0 ≤ s && s < 60 then
          .ok (some (mkDT d h m s none))
        else .ok none
      | none => .ok none
    | _, _ => .ok none
  else .ok (some (mkDT d 0 0 0 none))

/-- The manual slash stage of `parse_datetime` (source lines 287–313).
Outcomes: `.ok (some dt)` (returned), `.ok none` (a swallowed
`ValueError`/`IndexError` or no slash), `.error ()` (the `NameError` raised
when three parts are split but neither the first nor the last has four
characters, so `d` is never bound). -/
def parseDatetimeManualStage (l : List Char) : Except Unit (Option PyDateTime) :=
  if l.contains '/' then
    let pieces := pySplit ' ' l
    let dp := if l.contains ' ' then pieces.headD [] else l
    let tp := if l.contains ' ' then pieces.tail.headD [] else ['0', '0', ':', '0', '0', ':', '0', '0']
    match pySplit '/' dp with
    | [p0, p1, p2] =>
      if p0.length = 4 then
        match parsePyInt ⟨p0⟩, parsePyInt ⟨p1⟩, parsePyInt ⟨p2⟩ with
        | some y, some m, some d =>
          match mkDate y m d with
          | some dd => timeAndBuild dd tp
          | none => .ok none
        | _, _, _ => .ok none
      else if p2.length = 4 then
        match parsePyInt ⟨p2⟩, parsePyInt ⟨p0⟩, parsePyInt ⟨p1⟩ with
        | some y, some a, some b =>
          match mkDate y a b with
          | some dd => timeAndBuild dd tp
          | none =>
            match mkDate y b a with
            | some dd => timeAndBuild dd tp
            | none => .ok none
        | _, _, _ => .ok none
      else .error ()
    | _ => .ok none
  else .ok none

mutual

/-- Embedding of `PolarsCaster.parse_date`, with a fuel bound on the mutual recursion with
`parse_datetime` (the source recurses unboundedly on text that fails every
non-recursive stage; exhausted fuel models that `RecursionError`).  Because
`datetime` subclasses `date`, the leading `isinstance(value, date)` check
returns a `datetime` input unchanged, so the result is a `Value`. -/
def parse_date_fuel : Nat → Value → Except Unit (Option Value)
  | _, .vnull => .ok none
  | _, .vdate d => .ok (some (.vdate d))
  | _, .vdatetime dt => .ok (some (.vdatetime dt))
  | fuel, .vstr s =>
    let l := s.data
    match parseDateIsoStage l with
    | some d => .ok (some (.vdate d))
    | none =>
      match tryDatePatterns date_patterns l with
      | some d => .ok (some (.vdate d))
      | none =>
        match manualSepFallback '/' l with
        | some d => .ok (some (.vdate d))
        | none =>
          match manualSepFallback '-' l with
          | some d => .ok (some (.vdate d))
          | none =>
            match fuel with
            | 0 => .error ()
            | fuel' + 1 =>
              match parse_datetime_fuel fuel' (.vstr s) with
              | .error e => .error e
              | .ok (some dt) => .ok (some (.vdate dt.toDate))
              | .ok none => .ok none
  | _, _ => .ok none

/-- Embedding of `PolarsCaster.parse_datetime`, with the same fuel bound. -/
def parse_datetime_fuel : Nat → Value → Except Unit (Option PyDateTime)
  | _, .vnull => .ok none
  | _, .vdatetime dt => .ok (some dt)
  | _, .vdate d => .ok (some d.atMidnight)
  | fuel, .vstr s =>
    let l := s.data
    match parseDatetimeIsoStage l with
    | some dt => .ok (some dt)
    | none =>
      match tryDtPatterns datetime_patterns l with
      | some dt => .ok (some dt)
      | none =>
        match fuel with
        | 0 => .error ()
        | fuel' + 1 =>
          match parse_date_fuel fuel' (.vstr s) with
          | .error e => .error e
          | .ok (some dval) =>
            -- `datetime.combine` ignores the time of a `datetime` argument.
            match dval with
            | .vdate d => .ok (some d.atMidnight)
            | .vdatetime dt => .ok (some dt.toDate.atMidnight)
            | _ => .ok none
          | .ok none => parseDatetimeManualStage l
  | _, _ => .ok none

end

/-- Default recursion depth: any input on which the source terminates uses at
most two cross-calls, so any fuel of at least 4 yields the source's value. -/
def parseFuel : Nat := 8

/-- Wrapper: `parse_date` at the default fuel. -/
def parse_date (v : Value) : Except Unit (Option Value) :=
  parse_date_fuel parseFuel v

/-- Wrapper: `parse_datetime` at the default fuel. -/
def parse_datetime (v : Value) : Except Unit (Option PyDateTime) :=
  parse_datetime_fuel parseFuel v

/-! ## The type-coercion engine (`attempt_cast`) -/

/-- The Python target types `attempt_cast` dispatches on. -/
inductive PyType where
  | int : PyType
  | float : PyType
  | str : PyType
  | bool : PyType
  | date : PyType
  | datetime : PyType
deriving DecidableEq, Repr

/-- Python `isinstance(value, target_type)`: `bool` is a subclass of `int`
and `datetime` a subclass of `date`. -/
def isinstanceOf (v : Value) (t : PyType) : Bool :=
  match t, v with
  | .int, .vint _ => true
  | .int, .vbool _ => true
  | .float, .vfloat _ => true
  | .str, .vstr _ => true
  | .bool, .vbool _ => true
  | .date, .vdate _ => true
  | .date, .vdatetime _ => true
  | .datetime, .vdatetime _ => true
  | _, _ => false

/-- Python `float.is_integer()`. -/
def PFloat.isInteger : PFloat → Bool
  | .val q => q.den = 1
  | _ => false

/-- The lowered, stripped textual truthy tokens. -/
def trueTokens : List String := ["true", "yes", "1", "t", "y"]

/-- The lowered, stripped textual falsy tokens. -/
def falseTokens : List String := ["false", "no", "0", "f", "n", ""]

/-- Embedding of `PolarsCaster.attempt_cast` (source lines 80–134).  `ValueError`,
`TypeError` and `OverflowError` are swallowed into `vnull`; the only escaping
exception is the `RecursionError` of the temporal parser (`.error`). -/
def attempt_cast (v : Value) (t : PyType) : Except Unit Value :=
  if v = .vnull then .ok .vnull
  else if isinstanceOf v t then .ok v
  else
    match t with
    | .int =>
      match v with
      | .vstr s =>
        match parsePyFloat s with
        | none => .ok .vnull
        | some f => if f.isInteger then
            match f with
            | .val q => .ok (.vint q.num)
            | _ => .ok .vnull
          else .ok .vnull
      | .vfloat f =>
        if f.isInteger then
          match f with
          | .val q => .ok (.vint q.num)
          | _ => .ok .vnull
        else .ok .vnull
      | _ => .ok .vnull   -- `int(value)` on a date/datetime: `TypeError`
    | .float =>
      match v with
      | .vint n => .ok (.vfloat (.val (n : ℚ)))
      | .vbool b => .ok (.vfloat (.val (if b then 1 else 0)))
      | .vstr s =>
        match parsePyFloat s with
        | some f => .ok (.vfloat f)
        | none => .ok .vnull
      | _ => .ok .vnull   -- `float(value)` on a date/datetime: `TypeError`
    | .str => .ok (.vstr (pyStr v))
    | .bool =>
      match v with
      | .vstr s =>
        let value_lower := pyStrip (pyLower s)
        if trueTokens.contains value_lower then .ok (.vbool true)
        else if falseTokens.contains value_lower then .ok (.vbool false)
        else .ok (.vbool true)   -- non-empty strings are `True`
      | .vint n => .ok (.vbool (n ≠ 0))
      | .vfloat f =>
        match f with
        | .nan => .ok .vnull
        | .inf _ => .ok (.vbool true)
        | .val q => .ok (.vbool (q ≠ 0))
      | _ => .ok (.vbool true)   -- `bool(value)` on a date/datetime
    | .date =>
      match parse_date v with
      | .error e => .error e
      | .ok (some w) => .ok w
      | .ok none => .ok .vnull
    | .datetime =>
      match parse_datetime v with
      | .error e => .error e
      | .ok (some dt) => .ok (.vdatetime dt)
      | .ok none => .ok .vnull

/-! ## Schema model and the row/table caster -/

/-- The semantic field types a schema declares (the JSON-schema
`type`/`format` combinations `_get_polars_schema` and `cast_row` branch on). -/
inductive SemType where
  | sInt : SemType
  | sFloat : SemType
  | sText : SemType
  | sBool : SemType
  | sDate : SemType
  | sDatetime : SemType
deriving DecidableEq, Repr

/-- One declared schema field. -/
structure FieldSpec where
  name : String
  stype : SemType
  nullable : Bool
deriving DecidableEq, Repr

/-- A pydantic schema, as the ordered field list its JSON schema exposes. -/
abbrev Schema := List FieldSpec

/-- The `schema_mapping` the caster is constructed with. -/
abbrev Registry := List (String × Schema)

/-- Lookup of `schema_mapping[name]`. -/
def lookupSchema (reg : Registry) (name : String) : Option Schema :=
  (reg.find? (fun p => p.1 == name)).map (·.2)

/-- The Python type `cast_row` coerces a field of the given semantic type to. -/
def targetOf : SemType → PyType
  | .sInt => .int
  | .sFloat => .float
  | .sText => .str
  | .sBool => .bool
  | .sDate => .date
  | .sDatetime => .datetime

/-- Polars column dtypes. -/
inductive PDType where
  | int64 : PDType
  | float64 : PDType
  | utf8 : PDType
  | dateType : PDType
  | datetimeType : PDType
  | boolean : PDType
deriving DecidableEq, Repr

/-- Embedding of `_get_polars_schema`: the polars dtype of each declared field. -/
def polarsTypeOf : SemType → PDType
  | .sInt => .int64
  | .sFloat => .float64
  | .sText => .utf8
  | .sBool => .boolean
  | .sDate => .dateType
  | .sDatetime => .datetimeType

/-- Embedding of `_get_polars_schema` over a whole schema. -/
def polarsSchemaOf (schema : Schema) : List (String × PDType) :=
  schema.map (fun f => (f.name, polarsTypeOf f.stype))

/-- One table row, as the ordered dict `to_dicts` produces. -/
abbrev Row := List (String × Value)

/-- Python `row[key]` as an option (`none` when the key is absent). -/
def getVal (r : Row) (k : String) : Option Value :=
  (r.find? (fun p => p.1 == k)).map (·.2)

/-- Python `row[key]`, with absent keys read as null (polars rows always carry every
column). -/
def getValD (r : Row) (k : String) : Value :=
  (getVal r k).getD .vnull

/-- In-place update of an existing key (Python dict assignment keeps the key
order). -/
def setVal : Row → String → Value → Row
  | [], _, _ => []
  | (k', v') :: rest, k, v =>
    if k' == k then (k', v) :: rest else (k', v') :: setVal rest k v

/-- A polars DataFrame: a (name, dtype) schema and its rows. -/
structure DataFrame where
  dschema : List (String × PDType)
  rows : List Row
deriving DecidableEq, Repr

/-- The column names of a DataFrame. -/
def DataFrame.columns (df : DataFrame) : List String :=
  df.dschema.map (·.1)

/-- The per-field coercion loop of `cast_row`: every schema field present in
the row is rewritten through `attempt_cast`. -/
def coerceFields : Schema → Row → Except Unit Row
  | [], r => .ok r
  | f :: fs, r =>
    match getVal r f.name with
    | none => coerceFields fs r
    | some v =>
      match attempt_cast v (targetOf f.stype) with
      | .error e => .error e
      | .ok w => coerceFields fs (setVal r f.name w)

/-- Whether a fully-coerced value satisfies a declared semantic type. -/
def typeAccepts : SemType → Value → Bool
  | .sInt, .vint _ => true
  | .sFloat, .vfloat _ => true
  | .sText, .vstr _ => true
  | .sBool, .vbool _ => true
  | .sDate, .vdate _ => true
  | .sDatetime, .vdatetime _ => true
  | _, _ => false

/-- Modelled from the spec: the pydantic `schema(**processed_row)` validate /
`model_dump()` step, which is external to the repository.  Per §4.3 a row
fails when a declared field is missing or its (fully coerced) value is still
invalid for the declared type — null is only valid for a nullable field — and
a validated row exposes exactly the declared fields, in declaration order. -/
def validate_row (schema : Schema) (r : Row) : Option Row :=
  if schema.all (fun f =>
      match getVal r f.name with
      | none => false
      | some .vnull => f.nullable
      | some v => typeAccepts f.stype v)
  then some (schema.map (fun f => (f.name, getValD r f.name)))
  else none

/-- How a `cast_row` call can fail: the `ValueError` it raises on validation
failure, or the temporal parser's escaping `RecursionError`. -/
inductive RowFail where
  | validationFailed : RowFail
  | recursionFatal : RowFail
deriving DecidableEq, Repr

/-- Embedding of `PolarsCaster.cast_row` (source lines 317–357). -/
def cast_row (schema : Schema) (row : Row) : Except RowFail Row :=
  match coerceFields schema row with
  | .error _ => .error .recursionFatal
  | .ok pr =>
    match validate_row schema pr with
    | some out => .ok out
    | none => .error .validationFailed

/-- Everything the embedded operations can raise. -/
inductive PyError where
  | schemaNotFound (name : String) : PyError
  | emptyPrimaryKeyList : PyError
  | missingPrimaryKeyColumn (table : String) (pk : String) : PyError
  | nullPrimaryKeyValue (table : String) (pk : String) (count : Nat) : PyError
  | recursionFatal : PyError
  | polarsColumnNotFound : PyError
deriving DecidableEq, Repr

/-- The per-row loop of `cast_dataframe`: validation failures are printed and
skipped, a `RecursionError` propagates. -/
def castRows (schema : Schema) : List Row → Except Unit (List Row)
  | [] => .ok []
  | r :: rest =>
    match cast_row schema r with
    | .ok r' =>
      match castRows schema rest with
      | .ok rs => .ok (r' :: rs)
      | .error e => .error e
    | .error .validationFailed => castRows schema rest
    | .error .recursionFatal => .error ()

/-- Embedding of `PolarsCaster.cast_dataframe` (source lines 359–394): resolve the schema,
return a typed empty table for an empty input, coerce every row dropping
validation failures, and re-type the surviving rows per the polars schema. -/
def cast_dataframe (reg : Registry) (name : String) (df : DataFrame) :
    Except PyError DataFrame :=
  match lookupSchema reg name with
  | none => .error (.schemaNotFound name)
  | some schema =>
    if df.rows.isEmpty then .ok ⟨polarsSchemaOf schema, []⟩
    else
      match castRows schema df.rows with
      | .error _ => .error .recursionFatal
      | .ok rs =>
        if rs.isEmpty then .ok ⟨polarsSchemaOf schema, []⟩
        else .ok ⟨polarsSchemaOf schema, rs⟩

/-! ## The reconciler (`split_dataframe`) -/

/-- The existence loop of `split_dataframe` (source lines 418–422): the first
primary key missing from a table, `df_new` checked before `df_db`. -/
def checkPksExist (pks : List String) (newCols dbCols : List String) : Option PyError :=
  match pks with
  | [] => none
  | pk :: rest =>
    if !(newCols.contains pk) then some (.missingPrimaryKeyColumn "df_new" pk)
    else if !(dbCols.contains pk) then some (.missingPrimaryKeyColumn "df_db" pk)
    else checkPksExist rest newCols dbCols

/-- Polars `df.select(pl.col(pk).is_null().sum()).item()`. -/
def nullCount (df : DataFrame) (pk : String) : Nat :=
  df.rows.countP (fun r => getValD r pk == .vnull)

/-- The null-check loop of `split_dataframe` (source lines 425–432). -/
def checkPkNulls (pks : List String) (dfn dfb : DataFrame) : Option PyError :=
  match pks with
  | [] => none
  | pk :: rest =>
    let cn := nullCount dfn pk
    let cb := nullCount dfb pk
    if cn > 0 then some (.nullPrimaryKeyValue "df_new" pk cn)
    else if cb > 0 then some (.nullPrimaryKeyValue "df_db" pk cb)
    else checkPkNulls rest dfn dfb

/-- Polars `is_in`: membership under Python value equality. -/
def memEq (v : Value) (ids : List Value) : Bool :=
  ids.any (fun w => pyEq v w)

/-- The value of a row in the effective join column. -/
def rowKey (pk0 : String) (r : Row) : Value :=
  getValD r pk0

/-- The per-field comparison of the reconciler's loop (source lines
471–495): both null equal, one null unequal, two date-like values compared by
calendar date, anything else by Python `==`. -/
def fieldCompareEq : Value → Value → Bool
  | .vnull, .vnull => true
  | .vnull, _ => false
  | _, .vnull => false
  | .vdate d, .vdate e => d == e
  | .vdate d, .vdatetime dte => d == dte.toDate
  | .vdatetime dtn, .vdate e => dtn.toDate == e
  | .vdatetime dtn, .vdatetime dte => dtn.toDate == dte.toDate
  | a, b => pyEq a b

/-- The `is_identical` loop of `split_dataframe` (source lines 468–496): every
key of the new row that also occurs in the stored row and is not a primary
key must compare equal. -/
def rowIdentical (pks : List String) (rn rdb : Row) : Bool :=
  rn.all (fun kv =>
    match getVal rdb kv.1 with
    | none => true
    | some vdb => if pks.contains kv.1 then true else fieldCompareEq kv.2 vdb)

/-- One iteration of the id-classification loop: fetch the first matching
coerced row on each side and compare. -/
def classifyId (pks : List String) (pk0 : String) (cn cdb : DataFrame) (id : Value) : Bool :=
  let rowN := (cn.rows.find? (fun r => pyEq (rowKey pk0 r) id)).getD []
  let rowDb := (cdb.rows.find? (fun r => pyEq (rowKey pk0 r) id)).getD []
  rowIdentical pks rowN rowDb

/-- The list `ids_in_db`: the coerced stored table's join-key column. -/
def idsInDb (pk0 : String) (cdb : DataFrame) : List Value :=
  cdb.rows.map (rowKey pk0)

/-- The list `ids_in_both`: join-key values of coerced new rows whose key occurs in the
coerced stored table. -/
def idsInBoth (pk0 : String) (cn cdb : DataFrame) : List Value :=
  (cn.rows.filter (fun r => memEq (rowKey pk0 r) (idsInDb pk0 cdb))).map (rowKey pk0)

/-- The list `equals_ids`: ids the comparison loop classifies as identical. -/
def equalsIds (pks : List String) (pk0 : String) (cn cdb : DataFrame) : List Value :=
  ((idsInBoth pk0 cn cdb).partition (classifyId pks pk0 cn cdb)).1

/-- The list `update_ids`: ids the comparison loop classifies as changed. -/
def updateIds (pks : List String) (pk0 : String) (cn cdb : DataFrame) : List Value :=
  ((idsInBoth pk0 cn cdb).partition (classifyId pks pk0 cn cdb)).2

/-- Embedding of `PolarsCaster.split_dataframe` (source lines 396–507).  The guard after
the casts models the polars `ColumnNotFoundError` that `select(pks)` /
`pl.col(pks[0])` raise when a primary key is not a coerced column. -/
def split_dataframe (reg : Registry) (name : String) (pks : List String)
    (df_new df_db : DataFrame) : Except PyError (DataFrame × DataFrame × DataFrame) :=
  match lookupSchema reg name with
  | none => .error (.schemaNotFound name)
  | some schema =>
    if pks.isEmpty then .error .emptyPrimaryKeyList
    else
      match checkPksExist pks df_new.columns df_db.columns with
      | some e => .error e
      | none =>
        match checkPkNulls pks df_new df_db with
        | some e => .error e
        | none =>
          if df_new.rows.isEmpty then
            let empty : DataFrame := ⟨polarsSchemaOf schema, []⟩
            .ok (empty, empty, empty)
          else if df_db.rows.isEmpty then
            let empty : DataFrame := ⟨df_new.dschema, []⟩
            .ok (df_new, empty, empty)
          else
            match cast_dataframe reg name df_new with
            | .error e => .error e
            | .ok cn =>
              match cast_dataframe reg name df_db with
              | .error e => .error e
              | .ok cdb =>
                if !(pks.all (fun p => cdb.columns.contains p)
                      && pks.all (fun p => cn.columns.contains p)) then
                  .error .polarsColumnNotFound
                else
                  let pk0 := pks.headD ""
                  let insert_df : DataFrame :=
                    ⟨df_new.dschema,
                     df_new.rows.filter (fun r => !(memEq (rowKey pk0 r) (idsInDb pk0 cdb)))⟩
                  let equals_df : DataFrame :=
                    if (equalsIds pks pk0 cn cdb).isEmpty then ⟨df_new.dschema, []⟩
                    else ⟨df_new.dschema,
                          df_new.rows.filter (fun r =>
                            memEq (rowKey pk0 r) (equalsIds pks pk0 cn cdb))⟩
                  let update_df : DataFrame :=
                    if (updateIds pks pk0 cn cdb).isEmpty then ⟨df_new.dschema, []⟩
                    else ⟨df_new.dschema,
                          df_new.rows.filter (fun r =>
                            memEq (rowKey pk0 r) (updateIds pks pk0 cn cdb))⟩
                  .ok (insert_df, equals_df, update_df)

/-! ## Spec-side comparison definitions (for the refinement claims)

These follow the wording of the specification (§4.4 step 2), to be compared
with the source-derived `fieldCompareEq` / `rowIdentical`. -/

/-- Per the spec: both null → equal; exactly one null → unequal; both a date
or timestamp → compare by calendar date only; otherwise direct value
equality. -/
def specFieldEq (a b : Value) : Bool :=
  if a = .vnull && b = .vnull then true
  else if a = .vnull || b = .vnull then false
  else
    match a, b with
    | .vdate da, .vdate db => da == db
    | .vdate da, .vdatetime db => da == db.toDate
    | .vdatetime da, .vdate db => da.toDate == db
    | .vdatetime da, .vdatetime db => da.toDate == db.toDate
    | x, y => pyEq x y

/-- Per the spec: a row pair is Unchanged when every non-key field of the new
row compares equal to the stored row's field under `specFieldEq`. -/
def specRowUnchanged (pks : List String) (rn rdb : Row) : Bool :=
  rn.all (fun kv => pks.contains kv.1 || specFieldEq kv.2 (getValD rdb kv.1))

/-! ## Concrete scenario used by the reconciler witnesses

The spec's own test scenario: new = {1, 25}, {2, null}, {3, 30}, {4, 22};
stored = {2, null}, {3, 30}, {5, 28}; key `id`. -/

/-- Schema of the witness scenario: non-null `id`, nullable `edad`. -/
def wSchema : Schema := [⟨"id", .sInt, false⟩, ⟨"edad", .sInt, true⟩]

/-- Registry of the witness scenario. -/
def wReg : Registry := [("t", wSchema)]

/-- The witness new table. -/
def wNew : DataFrame :=
  ⟨[("id", .int64), ("edad", .int64)],
   [[("id", .vint 1), ("edad", .vint 25)],
    [("id", .vint 2), ("edad", .vnull)],
    [("id", .vint 3), ("edad", .vint 30)],
    [("id", .vint 4), ("edad", .vint 22)]]⟩

/-- The witness stored table. -/
def wDb : DataFrame :=
  ⟨[("id", .int64), ("edad", .int64)],
   [[("id", .vint 2), ("edad", .vnull)],
    [("id", .vint 3), ("edad", .vint 30)],
    [("id", .vint 5), ("edad", .vint 28)]]⟩

/-- The coerced witness new table (values are already canonical). -/
def wCn : DataFrame := ⟨[("id", .int64), ("edad", .int64)], wNew.rows⟩

/-- The coerced witness stored table. -/
def wCdb : DataFrame := ⟨[("id", .int64), ("edad", .int64)], wDb.rows⟩

/-- ToInsert of the witness scenario: ids 1 and 4. -/
def wIns : DataFrame :=
  ⟨[("id", .int64), ("edad", .int64)],
   [[("id", .vint 1), ("edad", .vint 25)],
    [("id", .vint 4), ("edad", .vint 22)]]⟩

/-- Unchanged of the witness scenario: ids 2 (null = null) and 3. -/
def wEqd : DataFrame :=
  ⟨[("id", .int64), ("edad", .int64)],
   [[("id", .vint 2), ("edad", .vnull)],
    [("id", .vint 3), ("edad", .vint 30)]]⟩

/-- ToUpdate of the witness scenario: empty. -/
def wUpd : DataFrame := ⟨[("id", .int64), ("edad", .int64)], []⟩

/-- Schema for the C9 witness: both fields non-nullable. -/
def vSchema : Schema := [⟨"id", .sInt, false⟩, ⟨"edad", .sInt, false⟩]

/-- Registry for the C9 witness. -/
def vReg : Registry := [("v", vSchema)]

/-- The C9 new table: its only row has an uncastable `edad`, so validation
drops it. -/
def vNew : DataFrame :=
  ⟨[("id", .int64), ("edad", .int64)], [[("id", .vint 1), ("edad", .vstr "ab5")]]⟩

/-- The C9 stored table: the same key 1, with a valid `edad`. -/
def vDb : DataFrame :=
  ⟨[("id", .int64), ("edad", .int64)], [[("id", .vint 1), ("edad", .vint 25)]]⟩

/-- The empty typed frame shared by the C9 outputs and its coerced new
table. -/
def vEmpty : DataFrame := ⟨[("id", .int64), ("edad", .int64)], []⟩

/-- The coerced C9 stored table. -/
def vCdb : DataFrame := ⟨[("id", .int64), ("edad", .int64)], vDb.rows⟩

/-! ## Support lemmas -/

theorem pyEq_symm (a b : Value) : pyEq a b = pyEq b a := by
  unfold pyEq
  cases ck a <;> cases ck b <;> simp [eq_comm]

theorem pyEq_trans {a b c : Value} (h1 : pyEq a b = true) (h2 : pyEq b c = true) :
    pyEq a c = true := by
  unfold pyEq at *
  cases ha : ck a <;> cases hb : ck b <;> cases hc : ck c <;>
    simp_all

/-- If `pyEq e k`, the predicates `pyEq x e` and `pyEq x k` agree. -/
theorem pyEq_congr_right {e k : Value} (h : pyEq e k = true) (x : Value) :
    pyEq x e = pyEq x k := by
  unfold pyEq at *
  cases he : ck e <;> cases hk : ck k <;> cases hx : ck x <;> simp_all

theorem splitCharAux_of_not_mem {sep : Char} {l : List Char} (acc : List Char)
    (h : sep ∉ l) : splitCharAux sep l acc = [acc.reverse ++ l] := by
  induction l generalizing acc with
  | nil => simp [splitCharAux]
  | cons c cs ih =>
    have hc : ¬(c = sep) := fun hcs => h (hcs ▸ List.mem_cons_self c cs)
    have hcs : sep ∉ cs := fun hm => h (List.mem_cons_of_mem c hm)
    simp [splitCharAux, hc, ih _ hcs]

theorem pySplit_of_not_contains {sep : Char} {l : List Char}
    (h : l.contains sep = false) : pySplit sep l = [l] := by
  have hm : sep ∉ l := by simpa using h
  simpa using splitCharAux_of_not_mem [] hm

/-- Congruence: `find?` only depends on the pointwise behaviour of its predicate. -/
theorem find?_congr {α : Type} {p q : α → Bool} (h : ∀ a, p a = q a) :
    ∀ l : List α, l.find? p = l.find? q := by
  intro l
  induction l with
  | nil => rfl
  | cons a as ih => simp [List.find?, h a, ih]

/-- Congruence: `List.all` only depends on the pointwise behaviour of its predicate. -/
theorem list_all_congr {α : Type} {p q : α → Bool} {l : List α}
    (h : ∀ a ∈ l, p a = q a) : l.all p = l.all q := by
  induction l with
  | nil => rfl
  | cons a as ih =>
    simp only [List.all_cons]
    rw [h a (List.mem_cons_self a as), ih (fun x hx => h x (List.mem_cons_of_mem a hx))]

/-- The field names of a validated row are exactly the schema's, in order. -/
theorem cast_row_keys {schema : Schema} {row out : Row}
    (h : cast_row schema row = .ok out) :
    out.map (·.1) = schema.map (·.name) := by
  unfold cast_row at h
  split at h
  · exact absurd h (by simp)
  · rename_i pr hco
    unfold validate_row at h
    split at h
    · rename_i out' heq
      cases h
      split at heq
      · rw [Option.some.injEq] at heq
        rw [← heq]
        simp
      · simp at heq
    · simp at h

/-- Every row of a `castRows` result is the `cast_row` image of an input row. -/
theorem mem_castRows {schema : Schema} {rows rs : List Row}
    (h : castRows schema rows = .ok rs) {r : Row} (hr : r ∈ rs) :
    ∃ row ∈ rows, cast_row schema row = .ok r := by
  induction rows generalizing rs with
  | nil =>
    unfold castRows at h
    cases h
    simp at hr
  | cons row rest ih =>
    unfold castRows at h
    cases hcr : cast_row schema row with
    | ok r' =>
      rw [hcr] at h
      cases hrest : castRows schema rest with
      | ok rs' =>
        rw [hrest] at h
        cases h
        rcases List.mem_cons.mp hr with h1 | h2
        · exact ⟨row, List.mem_cons_self _ _, h1 ▸ hcr⟩
        · obtain ⟨row', hm, hc⟩ := ih hrest h2
          exact ⟨row', List.mem_cons_of_mem _ hm, hc⟩
      | error e => rw [hrest] at h; exact absurd h (by simp)
    | error e =>
      rw [hcr] at h
      cases e with
      | validationFailed =>
        obtain ⟨row', hm, hc⟩ := ih h hr
        exact ⟨row', List.mem_cons_of_mem _ hm, hc⟩
      | recursionFatal => exact absurd h (by simp)

/-- Every row of a `cast_dataframe` result is a `cast_row` image of an input
row of the source table. -/
theorem mem_cast_dataframe {reg : Registry} {name : String} {df cdf : DataFrame}
    {schema : Schema} (hs : lookupSchema reg name = some schema)
    (h : cast_dataframe reg name df = .ok cdf) {r : Row} (hr : r ∈ cdf.rows) :
    ∃ row ∈ df.rows, cast_row schema row = .ok r := by
  unfold cast_dataframe at h
  rw [hs] at h
  simp only at h
  split at h
  · cases h
    simp at hr
  · split at h
    · exact absurd h (by simp)
    · rename_i rs hcast
      split at h
      · cases h
        simp at hr
      · cases h
        exact mem_castRows hcast hr

/-- A key present among a row's fields has a value. -/
theorem getVal_isSome_of_mem_keys {r : Row} {k : String}
    (h : k ∈ r.map (·.1)) : (getVal r k).isSome = true := by
  induction r with
  | nil => simp at h
  | cons kv rest ih =>
    simp only [List.map_cons, List.mem_cons] at h
    unfold getVal
    by_cases hk : kv.1 == k
    · simp [List.find?, hk]
    · rcases h with h1 | h2
      · exact absurd (by simp [h1]) hk
      · simpa [List.find?, hk, getVal] using ih h2

/-- The source comparison rules and the spec's comparison rules coincide
field-by-field. -/
theorem fieldCompare_eq_spec (a b : Value) : fieldCompareEq a b = specFieldEq a b := by
  cases a <;> cases b <;> rfl

/-- On rows whose every field name also occurs in the stored row, the
source's `is_identical` loop computes exactly the spec's Unchanged test. -/
theorem rowIdentical_eq_spec {pks : List String} {rn rdb : Row}
    (hkeys : ∀ kv ∈ rn, (getVal rdb kv.1).isSome = true) :
    rowIdentical pks rn rdb = specRowUnchanged pks rn rdb := by
  unfold rowIdentical specRowUnchanged
  apply list_all_congr
  intro kv hkv
  have hsome := hkeys kv hkv
  cases hv : getVal rdb kv.1 with
  | none => rw [hv] at hsome; simp at hsome
  | some vdb =>
    unfold getValD
    rw [hv]
    by_cases hpk : pks.contains kv.1 = true
    · simp [hpk, fieldCompare_eq_spec]
    · simp [hpk, fieldCompare_eq_spec]

/-- The existence loop passes exactly when every key exists in both tables. -/
theorem checkPksExist_eq_none {pks : List String} {ncols bcols : List String} :
    checkPksExist pks ncols bcols = none ↔
      ∀ pk ∈ pks, ncols.contains pk = true ∧ bcols.contains pk = true := by
  induction pks with
  | nil => simp [checkPksExist]
  | cons pk rest ih =>
    unfold checkPksExist
    by_cases hn : pk ∈ ncols
    · by_cases hb : pk ∈ bcols
      · simp [hn, hb, ih]
      · simp [hn, hb]
    · simp [hn]

/-- A failing existence loop reports a listed key that is indeed missing,
named with its table. -/
theorem checkPksExist_some {pks ncols bcols : List String} {e : PyError}
    (h : checkPksExist pks ncols bcols = some e) :
    ∃ pk ∈ pks,
      (e = .missingPrimaryKeyColumn "df_new" pk ∧ ncols.contains pk = false) ∨
      (e = .missingPrimaryKeyColumn "df_db" pk ∧ bcols.contains pk = false) := by
  induction pks with
  | nil => simp [checkPksExist] at h
  | cons pk rest ih =>
    unfold checkPksExist at h
    by_cases hn : pk ∈ ncols
    · by_cases hb : pk ∈ bcols
      · rw [if_neg (by simp [hn]), if_neg (by simp [hb])] at h
        obtain ⟨pk', hm, hsh⟩ := ih h
        exact ⟨pk', List.mem_cons_of_mem _ hm, hsh⟩
      · rw [if_neg (by simp [hn]), if_pos (by simp [hb])] at h
        cases h
        exact ⟨pk, List.mem_cons_self _ _, Or.inr ⟨rfl, by simpa using hb⟩⟩
    · rw [if_pos (by simp [hn])] at h
      cases h
      exact ⟨pk, List.mem_cons_self _ _, Or.inl ⟨rfl, by simpa using hn⟩⟩

/-- The null-check loop passes exactly when no listed key column contains a
null in either table. -/
theorem checkPkNulls_eq_none {pks : List String} {dfn dfb : DataFrame} :
    checkPkNulls pks dfn dfb = none ↔
      ∀ pk ∈ pks, nullCount dfn pk = 0 ∧ nullCount dfb pk = 0 := by
  induction pks with
  | nil => simp [checkPkNulls]
  | cons pk rest ih =>
    unfold checkPkNulls
    by_cases hn : nullCount dfn pk > 0
    · simp [hn]
      omega
    · by_cases hb : nullCount dfb pk > 0
      · simp [hn, hb]
        omega
      · simp [hn, hb, ih]
        omega

/-- A failing null check reports a listed key, its table and the exact null
count, which is positive. -/
theorem checkPkNulls_some {pks : List String} {dfn dfb : DataFrame} {e : PyError}
    (h : checkPkNulls pks dfn dfb = some e) :
    ∃ pk ∈ pks,
      (e = .nullPrimaryKeyValue "df_new" pk (nullCount dfn pk) ∧ nullCount dfn pk > 0) ∨
      (e = .nullPrimaryKeyValue "df_db" pk (nullCount dfb pk) ∧ nullCount dfb pk > 0) := by
  induction pks with
  | nil => simp [checkPkNulls] at h
  | cons pk rest ih =>
    unfold checkPkNulls at h
    by_cases hn : nullCount dfn pk > 0
    · rw [if_pos (by simpa using hn)] at h
      cases h
      exact ⟨pk, List.mem_cons_self _ _, Or.inl ⟨rfl, hn⟩⟩
    · by_cases hb : nullCount dfb pk > 0
      · rw [if_neg (by simpa using hn), if_pos (by simpa using hb)] at h
        cases h
        exact ⟨pk, List.mem_cons_self _ _, Or.inr ⟨rfl, hb⟩⟩
      · rw [if_neg (by simpa using hn), if_neg (by simpa using hb)] at h
        obtain ⟨pk', hm, hsh⟩ := ih h
        exact ⟨pk', List.mem_cons_of_mem _ hm, hsh⟩

/-- In the general (both inputs non-empty) case, a successful `split` returns
exactly the three filters of the original new table computed by the source:
inserts by key absence from the coerced stored keys, Unchanged/ToUpdate by
key membership in the classified id lists. -/
theorem split_general_eq {reg : Registry} {name : String} {pks : List String}
    {new db cn cdb ins eqd upd : DataFrame}
    (hnew : new.rows ≠ []) (hdb : db.rows ≠ [])
    (hcn : cast_dataframe reg name new = .ok cn)
    (hcdb : cast_dataframe reg name db = .ok cdb)
    (hsplit : split_dataframe reg name pks new db = .ok (ins, eqd, upd)) :
    ins = ⟨new.dschema, new.rows.filter (fun r =>
            !(memEq (rowKey (pks.headD "") r) (idsInDb (pks.headD "") cdb)))⟩ ∧
    eqd = (if (equalsIds pks (pks.headD "") cn cdb).isEmpty
           then (⟨new.dschema, []⟩ : DataFrame)
           else ⟨new.dschema, new.rows.filter (fun r =>
             memEq (rowKey (pks.headD "") r) (equalsIds pks (pks.headD "") cn cdb))⟩) ∧
    upd = (if (updateIds pks (pks.headD "") cn cdb).isEmpty
           then (⟨new.dschema, []⟩ : DataFrame)
           else ⟨new.dschema, new.rows.filter (fun r =>
             memEq (rowKey (pks.headD "") r) (updateIds pks (pks.headD "") cn cdb))⟩) := by
  unfold split_dataframe at hsplit
  split at hsplit
  · simp at hsplit
  · split at hsplit
    · simp at hsplit
    · split at hsplit
      · simp at hsplit
      · split at hsplit
        · simp at hsplit
        · split at hsplit
          · rename_i hcond
            exact absurd (List.isEmpty_iff.mp hcond) hnew
          · split at hsplit
            · rename_i hcond
              exact absurd (List.isEmpty_iff.mp hcond) hdb
            · split at hsplit
              · simp at hsplit
              · rename_i cn' hcn'
                rw [hcn] at hcn'
                cases hcn'
                split at hsplit
                · simp at hsplit
                · rename_i cdb' hcdb'
                  rw [hcdb] at hcdb'
                  cases hcdb'
                  split at hsplit
                  · simp at hsplit
                  · simp only [Except.ok.injEq, Prod.mk.injEq] at hsplit
                    obtain ⟨h1, h2, h3⟩ := hsplit
                    exact ⟨h1.symm, h2.symm, h3.symm⟩

/-- A successful `split` on an empty new table returns three schema-typed
empty tables. -/
theorem split_ok_empty_new {reg : Registry} {name : String} {pks : List String}
    {new db ins eqd upd : DataFrame} (hnew : new.rows = [])
    (hsplit : split_dataframe reg name pks new db = .ok (ins, eqd, upd)) :
    ∃ schema, lookupSchema reg name = some schema ∧
      ins = ⟨polarsSchemaOf schema, []⟩ ∧ eqd = ⟨polarsSchemaOf schema, []⟩ ∧
      upd = ⟨polarsSchemaOf schema, []⟩ := by
  unfold split_dataframe at hsplit
  split at hsplit
  · simp at hsplit
  · rename_i schema hlk
    refine ⟨schema, hlk, ?_⟩
    split at hsplit
    · simp at hsplit
    · split at hsplit
      · simp at hsplit
      · split at hsplit
        · simp at hsplit
        · split at hsplit
          · simp only [Except.ok.injEq, Prod.mk.injEq] at hsplit
            obtain ⟨h1, h2, h3⟩ := hsplit
            exact ⟨h1.symm, h2.symm, h3.symm⟩
          · rename_i hcond
            exact absurd (by simp [hnew] : new.rows.isEmpty = true) hcond

/-- A successful `split` on a non-empty new table and an empty stored table
returns the new table itself as ToInsert and two empty tables typed per the
new table. -/
theorem split_ok_empty_db {reg : Registry} {name : String} {pks : List String}
    {new db ins eqd upd : DataFrame} (hnew : new.rows ≠ []) (hdb : db.rows = [])
    (hsplit : split_dataframe reg name pks new db = .ok (ins, eqd, upd)) :
    ins = new ∧ eqd = ⟨new.dschema, []⟩ ∧ upd = ⟨new.dschema, []⟩ := by
  unfold split_dataframe at hsplit
  split at hsplit
  · simp at hsplit
  · split at hsplit
    · simp at hsplit
    · split at hsplit
      · simp at hsplit
      · split at hsplit
        · simp at hsplit
        · split at hsplit
          · rename_i hcond
            exact absurd (List.isEmpty_iff.mp hcond) hnew
          · split at hsplit
            · simp only [Except.ok.injEq, Prod.mk.injEq] at hsplit
              obtain ⟨h1, h2, h3⟩ := hsplit
              exact ⟨h1.symm, h2.symm, h3.symm⟩
            · rename_i hcond
              exact absurd hdb (by simpa using hcond)

/-- A successful `split` in the general case implies the coercion of the new
table succeeded. -/
theorem split_ok_cast_new {reg : Registry} {name : String} {pks : List String}
    {new db ins eqd upd : DataFrame} (hnew : new.rows ≠ []) (hdb : db.rows ≠ [])
    (hsplit : split_dataframe reg name pks new db = .ok (ins, eqd, upd)) :
    ∃ cn, cast_dataframe reg name new = .ok cn := by
  unfold split_dataframe at hsplit
  split at hsplit
  · simp at hsplit
  · split at hsplit
    · simp at hsplit
    · split at hsplit
      · simp at hsplit
      · split at hsplit
        · simp at hsplit
        · split at hsplit
          · rename_i hcond
            exact absurd (List.isEmpty_iff.mp hcond) hnew
          · split at hsplit
            · rename_i hcond
              exact absurd (List.isEmpty_iff.mp hcond) hdb
            · split at hsplit
              · simp at hsplit
              · rename_i cn' hcn'
                exact ⟨cn', hcn'⟩

/-- Casting an empty table yields an empty table. -/
theorem cast_empty_rows {reg : Registry} {name : String} {df cdf : DataFrame}
    (hdf : df.rows = []) (hcast : cast_dataframe reg name df = .ok cdf) :
    cdf.rows = [] := by
  unfold cast_dataframe at hcast
  split at hcast
  · simp at hcast
  · split at hcast
    · cases hcast
      rfl
    · rename_i hcond
      exact absurd hdf (by simpa using hcond)

/-- Every element of `ids_in_both` is the join-key value of a coerced new
row. -/
theorem mem_idsInBoth {pk0 : String} {cn cdb : DataFrame} {e : Value}
    (h : e ∈ idsInBoth pk0 cn cdb) : ∃ r' ∈ cn.rows, rowKey pk0 r' = e := by
  unfold idsInBoth at h
  obtain ⟨r', hr', hk⟩ := List.mem_map.mp h
  exact ⟨r', (List.mem_filter.mp hr').1, hk⟩

/-- Membership: `equals_ids` is a sublist of `ids_in_both`, and its elements are
classified identical. -/
theorem mem_equalsIds {pks : List String} {pk0 : String} {cn cdb : DataFrame} {e : Value}
    (h : e ∈ equalsIds pks pk0 cn cdb) :
    e ∈ idsInBoth pk0 cn cdb ∧ classifyId pks pk0 cn cdb e = true := by
  unfold equalsIds at h
  rw [List.partition_eq_filter_filter] at h
  exact ⟨(List.mem_filter.mp h).1, (List.mem_filter.mp h).2⟩

/-- Membership: `update_ids` is a sublist of `ids_in_both`, and its elements are
classified changed. -/
theorem mem_updateIds {pks : List String} {pk0 : String} {cn cdb : DataFrame} {e : Value}
    (h : e ∈ updateIds pks pk0 cn cdb) :
    e ∈ idsInBoth pk0 cn cdb ∧ classifyId pks pk0 cn cdb e = false := by
  unfold updateIds at h
  rw [List.partition_eq_filter_filter] at h
  refine ⟨(List.mem_filter.mp h).1, ?_⟩
  have := (List.mem_filter.mp h).2
  simpa using this

/-- Classification is invariant under Python-equal ids: the loop fetches the
same first-match rows for `==`-equal key values. -/
theorem classify_congr {pks : List String} {pk0 : String} {cn cdb : DataFrame}
    {e k : Value} (hek : pyEq e k = true) :
    classifyId pks pk0 cn cdb e = classifyId pks pk0 cn cdb k := by
  unfold classifyId
  have h1 : cn.rows.find? (fun r' => pyEq (rowKey pk0 r') e) =
      cn.rows.find? (fun r' => pyEq (rowKey pk0 r') k) :=
    find?_congr (fun r' => pyEq_congr_right hek (rowKey pk0 r')) cn.rows
  have h2 : cdb.rows.find? (fun r' => pyEq (rowKey pk0 r') e) =
      cdb.rows.find? (fun r' => pyEq (rowKey pk0 r') k) :=
    find?_congr (fun r' => pyEq_congr_right hek (rowKey pk0 r')) cdb.rows
  rw [h1, h2]

/-- A textual token in the falsy set is not in the truthy set. -/
theorem tokens_disjoint {x : String} (h : falseTokens.contains x = true) :
    trueTokens.contains x = false := by
  have hm : x ∈ falseTokens := by simpa using h
  simp only [falseTokens, List.mem_cons, List.mem_singleton, List.not_mem_nil,
    or_false] at hm
  rcases hm with h' | h' | h' | h' | h' | h' <;> subst h' <;> decide

/-- Idempotence of `attempt_cast` at target `int`. -/
theorem attemptCast_int_idem (v : Value) :
    ∃ w, attempt_cast v .int = .ok w ∧ attempt_cast w .int = .ok w := by
  cases v with
  | vnull => exact ⟨.vnull, rfl, rfl⟩
  | vbool b => exact ⟨.vbool b, rfl, rfl⟩
  | vint n => exact ⟨.vint n, rfl, rfl⟩
  | vfloat f =>
    cases f with
    | nan => exact ⟨.vnull, rfl, rfl⟩
    | inf b => exact ⟨.vnull, rfl, rfl⟩
    | val q =>
      by_cases hq : q.den = 1
      · exact ⟨.vint q.num, by simp [attempt_cast, isinstanceOf, PFloat.isInteger, hq], rfl⟩
      · exact ⟨.vnull, by simp [attempt_cast, isinstanceOf, PFloat.isInteger, hq], rfl⟩
  | vstr s =>
    cases hp : parsePyFloat s with
    | none => exact ⟨.vnull, by simp [attempt_cast, isinstanceOf, hp], rfl⟩
    | some f =>
      cases f with
      | nan => exact ⟨.vnull, by simp [attempt_cast, isinstanceOf, hp, PFloat.isInteger], rfl⟩
      | inf b => exact ⟨.vnull, by simp [attempt_cast, isinstanceOf, hp, PFloat.isInteger], rfl⟩
      | val q =>
        by_cases hq : q.den = 1
        · exact ⟨.vint q.num,
            by simp [attempt_cast, isinstanceOf, hp, PFloat.isInteger, hq], rfl⟩
        · exact ⟨.vnull, by simp [attempt_cast, isinstanceOf, hp, PFloat.isInteger, hq], rfl⟩
  | vdate d => exact ⟨.vnull, rfl, rfl⟩
  | vdatetime dt => exact ⟨.vnull, rfl, rfl⟩

/-- Idempotence of `attempt_cast` at target `float`. -/
theorem attemptCast_float_idem (v : Value) :
    ∃ w, attempt_cast v .float = .ok w ∧ attempt_cast w .float = .ok w := by
  cases v with
  | vnull => exact ⟨.vnull, rfl, rfl⟩
  | vbool b => exact ⟨.vfloat (.val (if b then 1 else 0)), rfl, rfl⟩
  | vint n => exact ⟨.vfloat (.val (n : ℚ)), rfl, rfl⟩
  | vfloat f => exact ⟨.vfloat f, rfl, rfl⟩
  | vstr s =>
    cases hp : parsePyFloat s with
    | none => exact ⟨.vnull, by simp [attempt_cast, isinstanceOf, hp], rfl⟩
    | some f => exact ⟨.vfloat f, by simp [attempt_cast, isinstanceOf, hp], rfl⟩
  | vdate d => exact ⟨.vnull, rfl, rfl⟩
  | vdatetime dt => exact ⟨.vnull, rfl, rfl⟩

/-- Idempotence of `attempt_cast` at target `str`. -/
theorem attemptCast_str_idem (v : Value) :
    ∃ w, attempt_cast v .str = .ok w ∧ attempt_cast w .str = .ok w := by
  cases v with
  | vnull => exact ⟨.vnull, rfl, rfl⟩
  | vbool b => exact ⟨.vstr (pyStr (.vbool b)), rfl, rfl⟩
  | vint n => exact ⟨.vstr (pyStr (.vint n)), rfl, rfl⟩
  | vfloat f => exact ⟨.vstr (pyStr (.vfloat f)), rfl, rfl⟩
  | vstr s => exact ⟨.vstr s, rfl, rfl⟩
  | vdate d => exact ⟨.vstr (pyStr (.vdate d)), rfl, rfl⟩
  | vdatetime dt => exact ⟨.vstr (pyStr (.vdatetime dt)), rfl, rfl⟩

/-- Idempotence of `attempt_cast` at target `bool`. -/
theorem attemptCast_bool_idem (v : Value) :
    ∃ w, attempt_cast v .bool = .ok w ∧ attempt_cast w .bool = .ok w := by
  cases v with
  | vnull => exact ⟨.vnull, rfl, rfl⟩
  | vbool b => exact ⟨.vbool b, rfl, rfl⟩
  | vint n => exact ⟨.vbool (decide ¬n = 0), rfl, rfl⟩
  | vfloat f =>
    cases f with
    | nan => exact ⟨.vnull, rfl, rfl⟩
    | inf b => exact ⟨.vbool true, rfl, rfl⟩
    | val q => exact ⟨.vbool (decide ¬q = 0), rfl, rfl⟩
  | vstr s =>
    by_cases ht : pyStrip (pyLower s) ∈ trueTokens
    · exact ⟨.vbool true, by simp [attempt_cast, isinstanceOf, ht], rfl⟩
    · by_cases hf : pyStrip (pyLower s) ∈ falseTokens
      · exact ⟨.vbool false, by simp [attempt_cast, isinstanceOf, ht, hf], rfl⟩
      · exact ⟨.vbool true, by simp [attempt_cast, isinstanceOf, ht, hf], rfl⟩
  | vdate d => exact ⟨.vbool true, rfl, rfl⟩
  | vdatetime dt => exact ⟨.vbool true, rfl, rfl⟩

/-! ## The claims -/

/-- Claim C5: `attempt_cast` to the Integer target first parses text as a
floating-point number and returns the truncated integer exactly when the
parsed value has no fractional part, otherwise null; a floating-point input
follows the same exact-integral-value rule; non-numeric text returns null;
and `attempt_cast("123.0") = 123`, `attempt_cast("123.55") = null`,
`attempt_cast("abc") = null`. -/
theorem polarity_C5 :
    (∀ (s : String) (q : ℚ), parsePyFloat s = some (.val q) → q.den = 1 →
        attempt_cast (.vstr s) .int = .ok (.vint q.num)) ∧
    (∀ (s : String) (f : PFloat), parsePyFloat s = some f → f.isInteger = false →
        attempt_cast (.vstr s) .int = .ok .vnull) ∧
    (∀ s : String, parsePyFloat s = none → attempt_cast (.vstr s) .int = .ok .vnull) ∧
    (∀ q : ℚ, q.den = 1 → attempt_cast (.vfloat (.val q)) .int = .ok (.vint q.num)) ∧
    (∀ f : PFloat, f.isInteger = false → attempt_cast (.vfloat f) .int = .ok .vnull) ∧
    attempt_cast (.vstr "123.0") .int = .ok (.vint 123) ∧
    attempt_cast (.vstr "123.55") .int = .ok .vnull ∧
    attempt_cast (.vstr "abc") .int = .ok .vnull := by
  refine ⟨?_, ?_, ?_, ?_, ?_, ?_, ?_, ?_⟩
  · intro s q hp hq
    simp [attempt_cast, isinstanceOf, hp, PFloat.isInteger, hq]
  · intro s f hp hf
    simp [attempt_cast, isinstanceOf, hp, hf]
  · intro s hp
    simp [attempt_cast, isinstanceOf, hp]
  · intro q hq
    simp [attempt_cast, isinstanceOf, PFloat.isInteger, hq]
  · intro f hf
    simp [attempt_cast, isinstanceOf, hf]
  · decide
  · decide
  · decide

/-- Witness for C5 at concrete inputs. -/
theorem polarity_C5_witness :
    attempt_cast (.vstr "7.0") .int = .ok (.vint 7) ∧
    attempt_cast (.vstr "7.5") .int = .ok .vnull := by
  constructor
  · exact polarity_C5.1 "7.0" 7 (by decide) (by decide)
  · exact polarity_C5.2.1 "7.5" (.val (mkRat 15 2)) (by decide) (by decide)

/-- Claim C6: `attempt_cast` to the Boolean target case/whitespace-normalizes
text, maps the truthy tokens to true, the falsy tokens (including the empty
string) to false, any other non-empty text to true; numeric zero to false,
any nonzero number to true, a floating NaN to null; native booleans pass
through. -/
theorem polarity_C6 :
    (∀ s : String, trueTokens.contains (pyStrip (pyLower s)) = true →
        attempt_cast (.vstr s) .bool = .ok (.vbool true)) ∧
    (∀ s : String, falseTokens.contains (pyStrip (pyLower s)) = true →
        attempt_cast (.vstr s) .bool = .ok (.vbool false)) ∧
    (∀ s : String, trueTokens.contains (pyStrip (pyLower s)) = false →
        falseTokens.contains (pyStrip (pyLower s)) = false →
        attempt_cast (.vstr s) .bool = .ok (.vbool true)) ∧
    (∀ n : Int, attempt_cast (.vint n) .bool = .ok (.vbool (n ≠ 0))) ∧
    (∀ q : ℚ, attempt_cast (.vfloat (.val q)) .bool = .ok (.vbool (q ≠ 0))) ∧
    attempt_cast (.vfloat .nan) .bool = .ok .vnull ∧
    (∀ b : Bool, attempt_cast (.vfloat (.inf b)) .bool = .ok (.vbool true)) ∧
    (∀ b : Bool, attempt_cast (.vbool b) .bool = .ok (.vbool b)) ∧
    attempt_cast (.vstr "yes") .bool = .ok (.vbool true) ∧
    attempt_cast (.vstr "") .bool = .ok (.vbool false) ∧
    attempt_cast (.vstr "abc") .bool = .ok (.vbool true) := by
  refine ⟨?_, ?_, ?_, ?_, ?_, ?_, ?_, ?_, ?_, ?_, ?_⟩
  · intro s h
    have h' : pyStrip (pyLower s) ∈ trueTokens := by simpa using h
    simp [attempt_cast, isinstanceOf, h']
  · intro s h
    have h' : pyStrip (pyLower s) ∈ falseTokens := by simpa using h
    have ht' : pyStrip (pyLower s) ∉ trueTokens := by simpa using tokens_disjoint h
    simp [attempt_cast, isinstanceOf, h', ht']
  · intro s ht hf
    have ht' : pyStrip (pyLower s) ∉ trueTokens := by simpa using ht
    have hf' : pyStrip (pyLower s) ∉ falseTokens := by simpa using hf
    simp [attempt_cast, isinstanceOf, ht', hf']
  · intro n
    rfl
  · intro q
    rfl
  · rfl
  · intro b
    rfl
  · intro b
    rfl
  · rfl
  · rfl
  · rfl

/-- Witness for C6 at concrete inputs. -/
theorem polarity_C6_witness :
    attempt_cast (.vstr " True ") .bool = .ok (.vbool true) ∧
    attempt_cast (.vstr "NO") .bool = .ok (.vbool false) ∧
    attempt_cast (.vstr "xyz") .bool = .ok (.vbool true) := by
  refine ⟨?_, ?_, ?_⟩
  · exact polarity_C6.1 " True " (by rfl)
  · exact polarity_C6.2.1 "NO" (by rfl)
  · exact polarity_C6.2.2.1 "xyz" (by rfl) (by rfl)

/-- Claim C7: for every value and every non-date target type,
`attempt_cast` is idempotent: casting a cast result again returns it
unchanged (and neither cast raises). -/
theorem polarity_C7 (v : Value) (t : PyType) (hd : t ≠ .date) (hdt : t ≠ .datetime) :
    ∃ w, attempt_cast v t = .ok w ∧ attempt_cast w t = .ok w := by
  cases t with
  | date => exact absurd rfl hd
  | datetime => exact absurd rfl hdt
  | int => exact attemptCast_int_idem v
  | float => exact attemptCast_float_idem v
  | str => exact attemptCast_str_idem v
  | bool => exact attemptCast_bool_idem v

/-- Witness for C7 at a concrete input. -/
theorem polarity_C7_witness :
    ∃ w, attempt_cast (.vstr "123.0") .int = .ok w ∧ attempt_cast w .int = .ok w :=
  polarity_C7 (.vstr "123.0") .int (by decide) (by decide)

/-- Claim C10: for every boolean input, `attempt_cast` to Integer returns the
boolean itself unchanged (not 0 or 1), because the `isinstance` pass-through
treats `bool` as a subclass of `int`. -/
theorem polarity_C10 (b : Bool) : attempt_cast (.vbool b) .int = .ok (.vbool b) := rfl

/-- Claim C8: the manual slash/dash fallback of the date parser, on text that
splits into three numeric parts: a 4-character first part is read
Year-Month-Day; otherwise a 4-character last part is the year, month-first
ordering is tried and then day-first, returning whichever first builds a
valid calendar date, null if neither; with no 4-character year part it
returns null. -/
theorem polarity_C8 (sep : Char) (s : String) (p0 p1 p2 : List Char) (n0 n1 n2 : Int)
    (_hsep : sep = '/' ∨ sep = '-')
    (hsplit : pySplit sep s.data = [p0, p1, p2])
    (h0 : parsePyInt ⟨p0⟩ = some n0) (h1 : parsePyInt ⟨p1⟩ = some n1)
    (h2 : parsePyInt ⟨p2⟩ = some n2) :
    (p0.length = 4 → manualSepFallback sep s.data = mkDate n0 n1 n2) ∧
    (p0.length ≠ 4 → p2.length = 4 →
      manualSepFallback sep s.data =
        match mkDate n2 n0 n1 with
        | some d => some d
        | none => mkDate n2 n1 n0) ∧
    (p0.length ≠ 4 → p2.length ≠ 4 → manualSepFallback sep s.data = none) := by
  by_cases hc : sep ∈ s.data
  · refine ⟨?_, ?_, ?_⟩
    · intro hl0
      simp [manualSepFallback, hc, hsplit, h0, h1, h2, hl0]
    · intro hl0 hl2
      simp [manualSepFallback, hc, hsplit, h0, h1, h2, hl0, hl2]
    · intro hl0 hl2
      simp [manualSepFallback, hc, hsplit, h0, h1, h2, hl0, hl2]
  · exfalso
    have : pySplit sep s.data = [s.data] :=
      pySplit_of_not_contains (by simpa using hc)
    rw [hsplit] at this
    simp at this

/-- Claim C3: `split` checks its primary-key preconditions against the
original (uncoerced) tables and fails before any coercion: an empty key list
raises the empty-list error; a key column missing from either table raises
the missing-column error naming the table and column; a null in a key column
raises the null-value error naming the column and the null count.  The
statements hold for arbitrary inputs — including inputs whose coercion would
itself diverge — because the checks precede the casts. -/
theorem polarity_C3 (reg : Registry) (name : String) (pks : List String)
    (new db : DataFrame) (schema : Schema)
    (hs : lookupSchema reg name = some schema) :
    (pks = [] → split_dataframe reg name pks new db = .error .emptyPrimaryKeyList) ∧
    (pks ≠ [] →
      (∃ pk ∈ pks, new.columns.contains pk = false ∨ db.columns.contains pk = false) →
      ∃ pk ∈ pks, ∃ t,
        split_dataframe reg name pks new db = .error (.missingPrimaryKeyColumn t pk) ∧
        ((t = "df_new" ∧ new.columns.contains pk = false) ∨
         (t = "df_db" ∧ db.columns.contains pk = false))) ∧
    (pks ≠ [] →
      (∀ pk ∈ pks, new.columns.contains pk = true ∧ db.columns.contains pk = true) →
      (∃ pk ∈ pks, nullCount new pk > 0 ∨ nullCount db pk > 0) →
      ∃ pk ∈ pks, ∃ t n,
        split_dataframe reg name pks new db = .error (.nullPrimaryKeyValue t pk n) ∧
        n > 0 ∧
        ((t = "df_new" ∧ n = nullCount new pk) ∨ (t = "df_db" ∧ n = nullCount db pk))) := by
  refine ⟨?_, ?_, ?_⟩
  · intro hpk
    subst hpk
    simp [split_dataframe, hs]
  · intro hpk hmiss
    have hne : checkPksExist pks new.columns db.columns ≠ none := by
      intro hnone
      obtain ⟨pk, hm, hor⟩ := hmiss
      obtain ⟨h1, h2⟩ := checkPksExist_eq_none.mp hnone pk hm
      rcases hor with h | h
      · rw [h1] at h; exact absurd h (by simp)
      · rw [h2] at h; exact absurd h (by simp)
    cases hce : checkPksExist pks new.columns db.columns with
    | none => exact absurd hce hne
    | some e =>
      obtain ⟨pk, hm, hsh⟩ := checkPksExist_some hce
      have hres : split_dataframe reg name pks new db = .error e := by
        simp [split_dataframe, hs, hpk, hce]
      rcases hsh with ⟨he, hc⟩ | ⟨he, hc⟩
      · exact ⟨pk, hm, "df_new", by rw [hres, he], Or.inl ⟨rfl, hc⟩⟩
      · exact ⟨pk, hm, "df_db", by rw [hres, he], Or.inr ⟨rfl, hc⟩⟩
  · intro hpk hall hnull
    have hce : checkPksExist pks new.columns db.columns = none :=
      checkPksExist_eq_none.mpr hall
    have hne : checkPkNulls pks new db ≠ none := by
      intro hnone
      obtain ⟨pk, hm, hor⟩ := hnull
      obtain ⟨h1, h2⟩ := checkPkNulls_eq_none.mp hnone pk hm
      rcases hor with h | h
      · omega
      · omega
    cases hcn : checkPkNulls pks new db with
    | none => exact absurd hcn hne
    | some e =>
      obtain ⟨pk, hm, hsh⟩ := checkPkNulls_some hcn
      have hres : split_dataframe reg name pks new db = .error e := by
        simp [split_dataframe, hs, hpk, hce, hcn]
      rcases hsh with ⟨he, hc⟩ | ⟨he, hc⟩
      · exact ⟨pk, hm, "df_new", nullCount new pk, by rw [hres, he], hc, Or.inl ⟨rfl, rfl⟩⟩
      · exact ⟨pk, hm, "df_db", nullCount db pk, by rw [hres, he], hc, Or.inr ⟨rfl, rfl⟩⟩

/-- Witness for C3: an empty key list on concrete tables. -/
theorem polarity_C3_witness :
    split_dataframe [("t", [⟨"id", .sInt, false⟩])] "t" []
      ⟨[("id", .int64)], [[("id", .vint 1)]]⟩ ⟨[("id", .int64)], []⟩ =
      .error .emptyPrimaryKeyList :=
  (polarity_C3 [("t", [⟨"id", .sInt, false⟩])] "t" []
      ⟨[("id", .int64)], [[("id", .vint 1)]]⟩ ⟨[("id", .int64)], []⟩
      [⟨"id", .sInt, false⟩] (by decide)).1 rfl

/-- Claim C4: with the preconditions satisfied, `split` handles empty inputs
in priority order: an empty new table yields three empty tables typed per the
schema, whatever the stored table holds; an empty stored table (new table
non-empty) yields ToInsert equal to the new table itself — original values
and order — and empty Unchanged/ToUpdate typed per the new table's own
column types. -/
theorem polarity_C4 (reg : Registry) (name : String) (pks : List String)
    (new db : DataFrame) (schema : Schema)
    (hs : lookupSchema reg name = some schema) (hpk : pks ≠ [])
    (hex : ∀ pk ∈ pks, new.columns.contains pk = true ∧ db.columns.contains pk = true)
    (hnl : ∀ pk ∈ pks, nullCount new pk = 0 ∧ nullCount db pk = 0) :
    (new.rows = [] →
      split_dataframe reg name pks new db =
        .ok (⟨polarsSchemaOf schema, []⟩, ⟨polarsSchemaOf schema, []⟩,
             ⟨polarsSchemaOf schema, []⟩)) ∧
    (new.rows ≠ [] → db.rows = [] →
      split_dataframe reg name pks new db =
        .ok (new, ⟨new.dschema, []⟩, ⟨new.dschema, []⟩)) := by
  have hce : checkPksExist pks new.columns db.columns = none :=
    checkPksExist_eq_none.mpr hex
  have hcn : checkPkNulls pks new db = none :=
    checkPkNulls_eq_none.mpr hnl
  constructor
  · intro hempty
    simp [split_dataframe, hs, hpk, hce, hcn, hempty]
  · intro hne hempty
    simp [split_dataframe, hs, hpk, hce, hcn, hne, hempty]

/-- Witness for C4: a concrete empty new table against a non-empty stored
table. -/
theorem polarity_C4_witness :
    split_dataframe [("t", [⟨"id", .sInt, false⟩])] "t" ["id"]
      ⟨[("id", .int64)], []⟩ ⟨[("id", .int64)], [[("id", .vint 2)]]⟩ =
      .ok (⟨[("id", .int64)], []⟩, ⟨[("id", .int64)], []⟩, ⟨[("id", .int64)], []⟩) :=
  (polarity_C4 [("t", [⟨"id", .sInt, false⟩])] "t" ["id"]
      ⟨[("id", .int64)], []⟩ ⟨[("id", .int64)], [[("id", .vint 2)]]⟩
      [⟨"id", .sInt, false⟩] (by decide) (by decide)
      (by decide) (by decide)).1 rfl

/-- Claim C2: `split` partitions by the first primary-key column only: an
original new row whose first-key value does not occur among the coerced
stored table's first-key values goes to ToInsert, and a key present only in
the stored table appears in none of the three outputs (the full key list is
used only by the precondition checks, settled in C3). -/
theorem polarity_C2 (reg : Registry) (name : String) (pks : List String)
    (new db ins eqd upd cdb : DataFrame)
    (hsplit : split_dataframe reg name pks new db = .ok (ins, eqd, upd))
    (hcdb : cast_dataframe reg name db = .ok cdb) :
    (∀ r ∈ new.rows,
      memEq (rowKey (pks.headD "") r) (idsInDb (pks.headD "") cdb) = false →
        r ∈ ins.rows) ∧
    (∀ k : Value, memEq k (idsInDb (pks.headD "") cdb) = true →
      (∀ r ∈ new.rows, pyEq (rowKey (pks.headD "") r) k = false) →
      (∀ r ∈ ins.rows, pyEq (rowKey (pks.headD "") r) k = false) ∧
      (∀ r ∈ eqd.rows, pyEq (rowKey (pks.headD "") r) k = false) ∧
      (∀ r ∈ upd.rows, pyEq (rowKey (pks.headD "") r) k = false)) := by
  by_cases hnew : new.rows = []
  · obtain ⟨schema, hlk, hins, heqd, hupd⟩ := split_ok_empty_new hnew hsplit
    constructor
    · intro r hr
      rw [hnew] at hr
      simp at hr
    · intro k _ _
      refine ⟨?_, ?_, ?_⟩
      · intro r hr; rw [hins] at hr; simp at hr
      · intro r hr; rw [heqd] at hr; simp at hr
      · intro r hr; rw [hupd] at hr; simp at hr
  · by_cases hdb : db.rows = []
    · obtain ⟨hins, heqd, hupd⟩ := split_ok_empty_db hnew hdb hsplit
      constructor
      · intro r hr _
        rw [hins]
        exact hr
      · intro k _ hnone
        refine ⟨?_, ?_, ?_⟩
        · intro r hr; rw [hins] at hr; exact hnone r hr
        · intro r hr; rw [heqd] at hr; simp at hr
        · intro r hr; rw [hupd] at hr; simp at hr
    · obtain ⟨cn, hcn⟩ := split_ok_cast_new hnew hdb hsplit
      obtain ⟨hins, heqd, hupd⟩ := split_general_eq hnew hdb hcn hcdb hsplit
      constructor
      · intro r hr hmem
        rw [hins]
        exact List.mem_filter.mpr ⟨hr, by simp only [Bool.not_eq_true']; exact hmem⟩
      · intro k _ hnone
        refine ⟨?_, ?_, ?_⟩
        · intro r hr
          rw [hins] at hr
          exact hnone r (List.mem_filter.mp hr).1
        · intro r hr
          rw [heqd] at hr
          by_cases hemp : (equalsIds pks (pks.headD "") cn cdb).isEmpty = true
          · rw [if_pos hemp] at hr
            simp at hr
          · rw [if_neg hemp] at hr
            exact hnone r (List.mem_filter.mp hr).1
        · intro r hr
          rw [hupd] at hr
          by_cases hemp : (updateIds pks (pks.headD "") cn cdb).isEmpty = true
          · rw [if_pos hemp] at hr
            simp at hr
          · rw [if_neg hemp] at hr
            exact hnone r (List.mem_filter.mp hr).1

/-- Claim C1: in `split`, for every key value present in both coerced
tables, the first matching coerced row of each side is compared on every
non-key field under the spec's rules (`specRowUnchanged`: both null equal,
one null unequal, date-likes by calendar date, otherwise value equality);
the key is classified Unchanged exactly when every such field compares
equal, ToUpdate otherwise, and the ORIGINAL new-table row carrying that key
is what lands in the corresponding output table. -/
theorem polarity_C1 (reg : Registry) (name : String) (pks : List String)
    (new db ins eqd upd cn cdb : DataFrame)
    (k : Value) (rn rdb : Row) (schema : Schema) (r : Row)
    (hs : lookupSchema reg name = some schema)
    (hnew : new.rows ≠ []) (hdb : db.rows ≠ [])
    (hsplit : split_dataframe reg name pks new db = .ok (ins, eqd, upd))
    (hcn : cast_dataframe reg name new = .ok cn)
    (hcdb : cast_dataframe reg name db = .ok cdb)
    (hk : k ∈ cn.rows.map (rowKey (pks.headD "")))
    (hkdb : memEq k (idsInDb (pks.headD "") cdb) = true)
    (hrn : cn.rows.find? (fun r' => pyEq (rowKey (pks.headD "") r') k) = some rn)
    (hrdb : cdb.rows.find? (fun r' => pyEq (rowKey (pks.headD "") r') k) = some rdb)
    (hr : r ∈ new.rows) (hrk : pyEq (rowKey (pks.headD "") r) k = true) :
    (specRowUnchanged pks rn rdb = true → r ∈ eqd.rows ∧ r ∉ upd.rows) ∧
    (specRowUnchanged pks rn rdb = false → r ∈ upd.rows ∧ r ∉ eqd.rows) := by
  obtain ⟨hins, heqd, hupd⟩ := split_general_eq hnew hdb hcn hcdb hsplit
  -- the loop's classification of k is the comparison of the fetched rows
  have hcls : classifyId pks (pks.headD "") cn cdb k = rowIdentical pks rn rdb := by
    unfold classifyId
    rw [hrn, hrdb]
    simp
  -- coerced rows expose exactly the schema's fields, so the source loop and
  -- the spec's rule traverse the same fields
  have hrnmem : rn ∈ cn.rows := List.mem_of_find?_eq_some hrn
  have hrdbmem : rdb ∈ cdb.rows := List.mem_of_find?_eq_some hrdb
  obtain ⟨rown, _, hcrn⟩ := mem_cast_dataframe hs hcn hrnmem
  obtain ⟨rowdb, _, hcrdb⟩ := mem_cast_dataframe hs hcdb hrdbmem
  have hkeysn := cast_row_keys hcrn
  have hkeysdb := cast_row_keys hcrdb
  have hkeys : ∀ kv ∈ rn, (getVal rdb kv.1).isSome = true := by
    intro kv hkv
    have hmem : kv.1 ∈ rn.map (·.1) := List.mem_map_of_mem _ hkv
    rw [hkeysn, ← hkeysdb] at hmem
    exact getVal_isSome_of_mem_keys hmem
  have hspec : rowIdentical pks rn rdb = specRowUnchanged pks rn rdb :=
    rowIdentical_eq_spec hkeys
  -- k is processed by the loop
  have hkboth : k ∈ idsInBoth (pks.headD "") cn cdb := by
    obtain ⟨r0, hr0, hkey0⟩ := List.mem_map.mp hk
    unfold idsInBoth
    exact List.mem_map.mpr
      ⟨r0, List.mem_filter.mpr ⟨hr0, by rw [hkey0]; exact hkdb⟩, hkey0⟩
  constructor
  · intro hU
    have hckU : classifyId pks (pks.headD "") cn cdb k = true := by
      rw [hcls, hspec, hU]
    have hkeq : k ∈ equalsIds pks (pks.headD "") cn cdb := by
      unfold equalsIds
      rw [List.partition_eq_filter_filter]
      exact List.mem_filter.mpr ⟨hkboth, hckU⟩
    constructor
    · rw [heqd, if_neg (by simpa using List.ne_nil_of_mem hkeq)]
      exact List.mem_filter.mpr
        ⟨hr, List.any_eq_true.mpr ⟨k, hkeq, hrk⟩⟩
    · intro hmem
      rw [hupd] at hmem
      by_cases hemp : (updateIds pks (pks.headD "") cn cdb).isEmpty = true
      · rw [if_pos hemp] at hmem
        simp at hmem
      · rw [if_neg hemp] at hmem
        have hx := (List.mem_filter.mp hmem).2
        obtain ⟨e, he, hpe⟩ := List.any_eq_true.mp hx
        obtain ⟨_, hecls⟩ := mem_updateIds he
        have hek : pyEq e k = true := by
          have h1 : pyEq e (rowKey (pks.headD "") r) = true := by
            rw [pyEq_symm]; exact hpe
          exact pyEq_trans h1 hrk
        rw [classify_congr hek, hckU] at hecls
        simp at hecls
  · intro hU
    have hckU : classifyId pks (pks.headD "") cn cdb k = false := by
      rw [hcls, hspec, hU]
    have hkeq : k ∈ updateIds pks (pks.headD "") cn cdb := by
      unfold updateIds
      rw [List.partition_eq_filter_filter]
      exact List.mem_filter.mpr ⟨hkboth, by simpa using hckU⟩
    constructor
    · rw [hupd, if_neg (by simpa using List.ne_nil_of_mem hkeq)]
      exact List.mem_filter.mpr
        ⟨hr, List.any_eq_true.mpr ⟨k, hkeq, hrk⟩⟩
    · intro hmem
      rw [heqd] at hmem
      by_cases hemp : (equalsIds pks (pks.headD "") cn cdb).isEmpty = true
      · rw [if_pos hemp] at hmem
        simp at hmem
      · rw [if_neg hemp] at hmem
        have hx := (List.mem_filter.mp hmem).2
        obtain ⟨e, he, hpe⟩ := List.any_eq_true.mp hx
        obtain ⟨_, hecls⟩ := mem_equalsIds he
        have hek : pyEq e k = true := by
          have h1 : pyEq e (rowKey (pks.headD "") r) = true := by
            rw [pyEq_symm]; exact hpe
          exact pyEq_trans h1 hrk
        rw [classify_congr hek, hckU] at hecls
        simp at hecls

/-- Witness for C1 on the spec's scenario: key 2 (null vs null) and key 3
are classified Unchanged, so their original rows land in Unchanged and not
in ToUpdate. -/
theorem polarity_C1_witness :
    [("id", Value.vint 3), ("edad", Value.vint 30)] ∈ wEqd.rows ∧
    [("id", Value.vint 3), ("edad", Value.vint 30)] ∉ wUpd.rows :=
  (polarity_C1 wReg "t" ["id"] wNew wDb wIns wEqd wUpd wCn wCdb
      (.vint 3) [("id", .vint 3), ("edad", .vint 30)]
      [("id", .vint 3), ("edad", .vint 30)] wSchema
      [("id", .vint 3), ("edad", .vint 30)]
      (by decide) (by decide) (by decide) (by decide) (by decide) (by decide)
      (by decide) (by decide) (by decide) (by decide)
      (by decide) (by decide)).1 (by decide)

/-- Witness for C2 on the spec's scenario: id 1 (new only) reaches ToInsert,
and stored-only id 5 appears nowhere in Unchanged. -/
theorem polarity_C2_witness :
    [("id", Value.vint 1), ("edad", Value.vint 25)] ∈ wIns.rows ∧
    (∀ r ∈ wEqd.rows, pyEq (rowKey (["id"].headD "") r) (.vint 5) = false) := by
  refine ⟨?_, ?_⟩
  · exact (polarity_C2 wReg "t" ["id"] wNew wDb wIns wEqd wUpd wCdb
      (by decide) (by decide)).1
      [("id", .vint 1), ("edad", .vint 25)] (by decide) (by decide)
  · exact ((polarity_C2 wReg "t" ["id"] wNew wDb wIns wEqd wUpd wCdb
      (by decide) (by decide)).2 (.vint 5) (by decide) (by decide)).2.1

/-- Claim C9: a new-table row that fails row validation during `split`'s
internal coercion is silently dropped from the coerced comparison table, so
when its first-key value does not occur among the coerced stored keys it
still reaches ToInsert with its original values, but when its first-key
value does occur there — and, being dropped, no coerced new row carries its
key — it appears in none of the three outputs: the outputs need not
partition the new table. -/
theorem polarity_C9 (reg : Registry) (name : String) (pks : List String)
    (new db ins eqd upd cn cdb : DataFrame) (schema : Schema) (r : Row)
    (_hs : lookupSchema reg name = some schema)
    (hsplit : split_dataframe reg name pks new db = .ok (ins, eqd, upd))
    (hcn : cast_dataframe reg name new = .ok cn)
    (hcdb : cast_dataframe reg name db = .ok cdb)
    (hr : r ∈ new.rows)
    (_hfail : cast_row schema r = .error .validationFailed) :
    (memEq (rowKey (pks.headD "") r) (idsInDb (pks.headD "") cdb) = false →
      r ∈ ins.rows) ∧
    (memEq (rowKey (pks.headD "") r) (idsInDb (pks.headD "") cdb) = true →
      (∀ r' ∈ cn.rows,
        pyEq (rowKey (pks.headD "") r') (rowKey (pks.headD "") r) = false) →
      r ∉ ins.rows ∧ r ∉ eqd.rows ∧ r ∉ upd.rows) := by
  have hnew : new.rows ≠ [] := List.ne_nil_of_mem hr
  by_cases hdb : db.rows = []
  · obtain ⟨hins, heqd, hupd⟩ := split_ok_empty_db hnew hdb hsplit
    constructor
    · intro _
      rw [hins]
      exact hr
    · intro hk _
      have hc : cdb.rows = [] := cast_empty_rows hdb hcdb
      unfold idsInDb at hk
      rw [hc] at hk
      simp [memEq] at hk
  · obtain ⟨hins, heqd, hupd⟩ := split_general_eq hnew hdb hcn hcdb hsplit
    constructor
    · intro hmem
      rw [hins]
      exact List.mem_filter.mpr ⟨hr, by simp only [Bool.not_eq_true']; exact hmem⟩
    · intro hk hnone
      refine ⟨?_, ?_, ?_⟩
      · intro hmem
        rw [hins] at hmem
        have hx := (List.mem_filter.mp hmem).2
        simp only [Bool.not_eq_true'] at hx
        rw [hx] at hk
        simp at hk
      · intro hmem
        rw [heqd] at hmem
        by_cases hemp : (equalsIds pks (pks.headD "") cn cdb).isEmpty = true
        · rw [if_pos hemp] at hmem
          simp at hmem
        · rw [if_neg hemp] at hmem
          have hx := (List.mem_filter.mp hmem).2
          unfold memEq at hx
          obtain ⟨e, he, hpe⟩ := List.any_eq_true.mp hx
          obtain ⟨hboth, _⟩ := mem_equalsIds he
          obtain ⟨r', hr', hkey⟩ := mem_idsInBoth hboth
          have hz := hnone r' hr'
          rw [hkey, pyEq_symm] at hz
          rw [hpe] at hz
          simp at hz
      · intro hmem
        rw [hupd] at hmem
        by_cases hemp : (updateIds pks (pks.headD "") cn cdb).isEmpty = true
        · rw [if_pos hemp] at hmem
          simp at hmem
        · rw [if_neg hemp] at hmem
          have hx := (List.mem_filter.mp hmem).2
          unfold memEq at hx
          obtain ⟨e, he, hpe⟩ := List.any_eq_true.mp hx
          obtain ⟨hboth, _⟩ := mem_updateIds he
          obtain ⟨r', hr', hkey⟩ := mem_idsInBoth hboth
          have hz := hnone r' hr'
          rw [hkey, pyEq_symm] at hz
          rw [hpe] at hz
          simp at hz

/-- Witness for C9: the dropped row's key exists in the stored table, and the
row reaches none of the three outputs. -/
theorem polarity_C9_witness :
    [("id", Value.vint 1), ("edad", Value.vstr "ab5")] ∉ vEmpty.rows :=
  ((polarity_C9 vReg "v" ["id"] vNew vDb vEmpty vEmpty vEmpty vEmpty vCdb vSchema
      [("id", .vint 1), ("edad", .vstr "ab5")]
      (by decide) (by decide) (by decide) (by decide) (by decide) (by decide)).2
    (by decide) (by decide)).1

/-- Witness for C8: `"23/6/2021"` fails month-first and succeeds day-first. -/
theorem polarity_C8_witness :
    ('/' = '/' ∨ '/' = '-') ∧
    manualSepFallback '/' "23/6/2021".data =
      match mkDate 2021 23 6 with
      | some d => some d
      | none => mkDate 2021 6 23 :=
  ⟨Or.inl rfl,
   (polarity_C8 '/' "23/6/2021" ['2', '3'] ['6'] ['2', '0', '2', '1'] 23 6 2021
      (Or.inl rfl) (by rfl) (by rfl) (by rfl) (by rfl)).2.1 (by decide) (by decide)⟩

end Polarity
